import Mathlib

/-!
Verification development for the catalog / access-control core of
`Catalog/Catalog.cpp` (Catalog_Namespace).  The C++ data structures and
operations are shallowly embedded as Lean definitions:

* `std::map`-style registries become association lists (`List (κ × ν)`)
  with `alookup` / `aupsert` / `aerase`;
* integer machine values become `Int` (ids) and `Nat` (privilege bitmasks);
* functions that can throw (`std::runtime_error`) return an error message
  alongside the resulting state, and fatal `CHECK` assertions are modelled
  with `Option` (`none` = abort);
* the SQLite persistent store is modelled as lists of row records inside
  the state; `BEGIN/ROLLBACK/END TRANSACTION` becomes restoring the store
  components of the state on error.

The `Role` hierarchy (`GroupRole` / `UserRole`) is implemented outside the
translated file; those methods are modelled from the specification and are
marked as such in their doc comments.
-/

namespace Catalog_Namespace

/-! ## Association-list helpers (model of `std::map` / `std::unordered_map`) -/

/-- Lookup in an association list (first matching key). -/
def alookup {κ ν : Type} [DecidableEq κ] : List (κ × ν) → κ → Option ν
  | [], _ => none
  | (k', v) :: rest, k => if k' = k then some v else alookup rest k

/-- Insert-or-replace in an association list (model of `map[k] = v`). -/
def aupsert {κ ν : Type} [DecidableEq κ] : List (κ × ν) → κ → ν → List (κ × ν)
  | [], k, v => [(k, v)]
  | (k', v') :: rest, k, v =>
    if k' = k then (k, v) :: rest else (k', v') :: aupsert rest k v

/-- Erase a key from an association list (model of `map.erase(k)`). -/
def aerase {κ ν : Type} [DecidableEq κ] : List (κ × ν) → κ → List (κ × ν)
  | [], _ => []
  | (k', v') :: rest, k =>
    if k' = k then aerase rest k else (k', v') :: aerase rest k

theorem alookup_upsert_self {κ ν : Type} [DecidableEq κ]
    (l : List (κ × ν)) (k : κ) (v : ν) : alookup (aupsert l k v) k = some v := by
  induction l with
  | nil => simp [aupsert, alookup]
  | cons hd tl ih =>
    by_cases h : hd.1 = k <;> simp [aupsert, alookup, h, ih]

theorem alookup_upsert_ne {κ ν : Type} [DecidableEq κ]
    (l : List (κ × ν)) (k k' : κ) (v : ν) (h : k ≠ k') :
    alookup (aupsert l k v) k' = alookup l k' := by
  induction l with
  | nil => simp [aupsert, alookup, h]
  | cons hd tl ih =>
    by_cases h1 : hd.1 = k <;> by_cases h2 : hd.1 = k' <;>
      simp_all [aupsert, alookup]

theorem alookup_erase_self {κ ν : Type} [DecidableEq κ]
    (l : List (κ × ν)) (k : κ) : alookup (aerase l k) k = none := by
  induction l with
  | nil => simp [aerase, alookup]
  | cons hd tl ih =>
    by_cases h : hd.1 = k <;> simp [aerase, alookup, h, ih]

theorem alookup_erase_ne {κ ν : Type} [DecidableEq κ]
    (l : List (κ × ν)) (k k' : κ) (h : k ≠ k') :
    alookup (aerase l k) k' = alookup l k' := by
  induction l with
  | nil => simp [aerase, alookup]
  | cons hd tl ih =>
    by_cases h1 : hd.1 = k <;> by_cases h2 : hd.1 = k' <;>
      simp_all [aerase, alookup]

/-- Model of the `to_upper` string normalisation used for map keys. -/
def to_upper (s : String) : String := String.mk (s.data.map Char.toUpper)

/-! ## Privilege model

`AccessPrivileges` is a bitmask stored in its `privileges` integer field;
union is `grant`, difference is `revoke`, non-empty test is `hasAny`. -/

/-- Bitmask union, model of `AccessPrivileges` grant (`privileges |= ...`). -/
def privGrant (a b : Nat) : Nat := a ||| b

/-- Bitmask difference, model of `AccessPrivileges` revoke
(`privileges &= ~...`); on naturals, subtracting the common bits clears
exactly the revoked bits. -/
def privRemove (a b : Nat) : Nat := a - (a &&& b)

/-- Non-empty test, model of `AccessPrivileges::hasAny`. -/
def privHasAny (a : Nat) : Bool := a != 0

/-- Test that all required bits are present in the held bitmask. -/
def privContains (held req : Nat) : Bool := held &&& req == req

/-- Model of `DBObjectType` (`objectPermissionsType` discriminator). -/
inductive DBObjectType : Type where
  | DatabaseDBObjectType
  | TableDBObjectType
  | DashboardDBObjectType
  | ViewDBObjectType
deriving DecidableEq, Repr

/-- Model of `DBObjectKey`: {permission kind, database id, object id};
`objectId = -1` denotes the database itself. -/
structure DBObjectKey where
  permissionType : DBObjectType
  dbId : Int
  objectId : Int := -1
deriving DecidableEq, Repr

/-- Model of `DBObject`: a securable object reference carrying its key, a
privilege bitmask, an owner and a display name.  In this embedding objects
arrive with their `DBObjectKey` already resolved (`DBObject::loadKey`
resolves names against the per-database catalog; that resolution is not
part of the translated file). -/
structure DBObject where
  objectKey : DBObjectKey
  objectName : String := ""
  privileges : Nat := 0
  ownerId : Int := 0
deriving DecidableEq, Repr

/-! ## Role graph

Modelled from the spec: the `GroupRole` / `UserRole` implementations are
not part of the translated file.  Per the spec, a `GroupRole` holds a map
`DBObjectKey -> DBObject`; `grantPrivileges` merges bits (creating the
entry if absent, owner taken from the granted object on first grant);
`revokePrivileges` clears bits and returns the resulting object; a
`UserRole` holds the set of granted `GroupRole`s, with idempotent-set
membership edges. -/

/-- Model of `GroupRole`: role name, private-role flag and the privilege
map keyed by `DBObjectKey`. -/
structure GroupRole where
  roleName : String
  userPrivateRole : Bool
  dbObjectMap : List (DBObjectKey × DBObject) := []
deriving DecidableEq, Repr

/-- Modelled from the spec: `Role::grantPrivileges(object)` merges the
privilege bits of `object` into the stored entry for its key, creating
the entry (with owner taken from `object`) when absent. -/
def groupGrantPrivileges (rl : GroupRole) (o : DBObject) : GroupRole :=
  match alookup rl.dbObjectMap o.objectKey with
  | none => { rl with dbObjectMap := aupsert rl.dbObjectMap o.objectKey o }
  | some e =>
    let e2 := { e with privileges := privGrant e.privileges o.privileges }
    { rl with dbObjectMap := aupsert rl.dbObjectMap o.objectKey e2 }

/-- Modelled from the spec: `Role::revokePrivileges(object)` clears the
bits of `object` from the stored entry for its key and returns the
resulting (possibly empty) object; it fails when the role holds no entry
for that key. -/
def groupRevokePrivileges (rl : GroupRole) (o : DBObject) :
    Option (DBObject × GroupRole) :=
  match alookup rl.dbObjectMap o.objectKey with
  | none => none
  | some e =>
    let e' := { e with privileges := privRemove e.privileges o.privileges }
    some (e', { rl with dbObjectMap := aupsert rl.dbObjectMap o.objectKey e' })

/-- Model of `UserRole`: per-user handle referencing the set of granted
`GroupRole`s.  Group membership is represented by the granted roles'
normalised (`to_upper`) names, mirroring pointer identity into the
role map keyed by normalised name.  Modelled from the spec: membership
edges are idempotent sets; a freshly constructed `UserRole` starts with
no memberships (the caller grants the first role explicitly). -/
structure UserRole where
  userId : Int
  userName : String
  groups : List String := []
deriving DecidableEq, Repr

/-- Modelled from the spec: `UserRole::hasRole`. -/
def userHasRole (url : UserRole) (roleKey : String) : Bool :=
  url.groups.contains roleKey

/-- Modelled from the spec: `UserRole::grantRole`, an idempotent set
insertion. -/
def userGrantRole (url : UserRole) (roleKey : String) : UserRole :=
  if url.groups.contains roleKey then url
  else { url with groups := url.groups ++ [roleKey] }

/-- Modelled from the spec: `UserRole::revokeRole`, removal of a
membership edge. -/
def userRevokeRole (url : UserRole) (roleKey : String) : UserRole :=
  { url with groups := url.groups.filter (fun g => g ≠ roleKey) }

/-- Modelled from the spec: `UserRole::getMembershipSize`. -/
def userMembershipSize (url : UserRole) : Nat := url.groups.length

/-! ## SysCatalog state -/

/-- Model of `UserMetadata` (row shape of `mapd_users`). -/
structure UserMetadata where
  userId : Int
  userName : String
  passwd : String
  isSuper : Bool
deriving DecidableEq, Repr

/-- Row of the persisted `mapd_object_permissions` table, as written by
`insertOrUpdateObjectPrivileges`. -/
structure ObjectPermRow where
  roleName : String
  roleType : Bool
  permissionType : DBObjectType
  dbId : Int
  objectId : Int
  privileges : Nat
  ownerId : Int
  objectName : String
deriving DecidableEq, Repr

/-- Name of the root user (`MAPD_ROOT_USER`). -/
def MAPD_ROOT_USER : String := "mapd"

/-- Model of the `SysCatalog` singleton: the persistent system store
(`mapd_users`, `mapd_roles`, `mapd_object_permissions`) plus the
in-memory role graph (`roleMap_`, `userRoleMap_`). -/
structure SysState where
  users : List UserMetadata
  nextUserId : Int
  roleMap : List (String × GroupRole)
  userRoleMap : List (Int × UserRole)
  mapdRoles : List (String × String)
  objectPermissions : List ObjectPermRow
  checkPrivilegesEnabled : Bool
  currentDbName : String
  currentDbId : Int
deriving DecidableEq, Repr

/-- Model of `SysCatalog::getMetadataForUser` (query of `mapd_users` by
name). -/
def getMetadataForUser (s : SysState) (name : String) : Option UserMetadata :=
  s.users.find? (fun u => u.userName = name)

/-- Model of `SysCatalog::getMetadataForRole` (lookup in `roleMap_` under
the `to_upper` key). -/
def getMetadataForRole (s : SysState) (roleName : String) : Option GroupRole :=
  alookup s.roleMap (to_upper roleName)

/-- Model of `SysCatalog::getMetadataForUserRole` (lookup in
`userRoleMap_` by user id). -/
def getMetadataForUserRole (s : SysState) (userId : Int) : Option UserRole :=
  alookup s.userRoleMap userId

/-- Model of `SysCatalog::arePrivilegesOn`. -/
def arePrivilegesOn (s : SysState) : Bool := s.checkPrivilegesEnabled

/-- Union of the privilege bits stored for `key` across a list of granted
group roles — the privilege closure of a `UserRole`.  Modelled from the
spec: the user passes a check when the required bits are present in the
union across all granted `GroupRole`s of the bits under the matching
`DBObjectKey` (fail-closed: an absent key contributes nothing). -/
def userClosure (s : SysState) (groups : List String) (key : DBObjectKey) : Nat :=
  groups.foldl
    (fun acc g =>
      match alookup s.roleMap g with
      | none => acc
      | some rl =>
        match alookup rl.dbObjectMap key with
        | none => acc
        | some o => privGrant acc o.privileges)
    0

/-- Modelled from the spec: `UserRole::checkPrivileges(object)` — the
required bits of `object` must all be present in the closure. -/
def userRoleCheckPrivileges (s : SysState) (url : UserRole) (o : DBObject) : Bool :=
  privContains (userClosure s url.groups o.objectKey) o.privileges

/-- Modelled from the spec: `UserRole::hasAnyPrivileges(object)` — the
closure for the key must be non-empty. -/
def userRoleHasAnyPrivileges (s : SysState) (url : UserRole) (o : DBObject) : Bool :=
  privHasAny (userClosure s url.groups o.objectKey)

/-- Model of `SysCatalog::checkPrivileges(user, privObjects)`.  Returns
`none` when the fatal `CHECK(user_rl)` assertion fires (non-super user
with no `UserRole`), otherwise `some` of the boolean result. -/
def checkPrivileges (s : SysState) (user : UserMetadata)
    (privObjects : List DBObject) : Option Bool :=
  if user.isSuper then some true
  else
    match getMetadataForUserRole s user.userId with
    | none => none
    | some url => some (privObjects.all (fun o => userRoleCheckPrivileges s url o))

/-- Model of `SysCatalog::hasAnyPrivileges(user, privObjects)`; `none`
models the fatal `CHECK(user_rl)`. -/
def hasAnyPrivileges (s : SysState) (user : UserMetadata)
    (privObjects : List DBObject) : Option Bool :=
  if user.isSuper then some true
  else
    match getMetadataForUserRole s user.userId with
    | none => none
    | some url => some (privObjects.all (fun o => userRoleHasAnyPrivileges s url o))

/-! ## SysCatalog operations

Each operation returns `(Option String) × SysState`: the first component
is `some message` when the C++ code throws `runtime_error`, and the
returned state reflects exactly the mutations performed before the throw. -/

/-- Model of the free function `insertOrUpdateObjectPrivileges`
(`INSERT OR REPLACE INTO mapd_object_permissions`, unique on
(roleName, objectPermissionsType, dbId, objectId)). -/
def insertOrUpdateObjectPrivileges (rows : List ObjectPermRow)
    (roleName : String) (userRole : Bool) (o : DBObject) : List ObjectPermRow :=
  rows.filter
    (fun r =>
      !(r.roleName == roleName &&
        r.permissionType == o.objectKey.permissionType &&
        r.dbId == o.objectKey.dbId && r.objectId == o.objectKey.objectId)) ++
  [{ roleName := roleName, roleType := userRole,
     permissionType := o.objectKey.permissionType,
     dbId := o.objectKey.dbId, objectId := o.objectKey.objectId,
     privileges := o.privileges, ownerId := o.ownerId,
     objectName := o.objectName }]

/-- Model of the free function `deleteObjectPrivileges`
(`DELETE FROM mapd_object_permissions WHERE roleName = ? and roleType = ?
and objectPermissionsType = ? and dbId = ? and objectId = ?`). -/
def deleteObjectPrivileges (rows : List ObjectPermRow)
    (roleName : String) (userRole : Bool) (o : DBObject) : List ObjectPermRow :=
  rows.filter
    (fun r =>
      !(r.roleName == roleName && r.roleType == userRole &&
        r.permissionType == o.objectKey.permissionType &&
        r.dbId == o.objectKey.dbId && r.objectId == o.objectKey.objectId))

/-- Model of `SysCatalog::createRole_unsafe`.  Note that the user-name
clash check is performed only for non-private roles. -/
def createRoleUnlocked (s : SysState) (roleName : String)
    (userPrivateRole : Bool) : Option String × SysState :=
  if !userPrivateRole && (getMetadataForUser s roleName).isSome then
    (some ("Role name " ++ roleName ++
      " is same as one of user names. Role and user names should be unique."), s)
  else if (getMetadataForRole s roleName).isSome then
    (some ("CREATE ROLE " ++ roleName ++
      " failed because role with this name already exists."), s)
  else
    let rl : GroupRole :=
      { roleName := roleName, userPrivateRole := userPrivateRole, dbObjectMap := [] }
    let objKey : DBObjectKey :=
      { permissionType := DBObjectType.DatabaseDBObjectType, dbId := 0, objectId := -1 }
    let dbObject : DBObject :=
      { objectKey := objKey, objectName := s.currentDbName, privileges := 0, ownerId := 0 }
    let rl' := groupGrantPrivileges rl dbObject
    let rows :=
      insertOrUpdateObjectPrivileges s.objectPermissions roleName userPrivateRole dbObject
    (none,
      { s with
        roleMap := aupsert s.roleMap (to_upper roleName) rl',
        objectPermissions := rows })

/-- Model of `SysCatalog::grantDBObjectPrivileges_unsafe`.  The object is
taken with its `DBObjectKey` already resolved (`object.loadKey(catalog)`
in the source). -/
def grantDBObjectPrivilegesUnlocked (s : SysState) (roleName : String)
    (object : DBObject) : Option String × SysState :=
  if roleName = MAPD_ROOT_USER then
    (some ("Request to grant privileges to " ++ roleName ++
      " failed because mapd root user has all privileges by default."), s)
  else
    match getMetadataForRole s roleName with
    | none =>
      (some ("Request to grant privileges to " ++ roleName ++
        " failed because role or user with this name does not exist."), s)
    | some rl =>
      let rl' := groupGrantPrivileges rl object
      let stored := (alookup rl'.dbObjectMap object.objectKey).getD object
      let object' := { object with privileges := stored.privileges }
      let rows :=
        insertOrUpdateObjectPrivileges s.objectPermissions roleName
          rl.userPrivateRole object'
      (none,
        { s with
          roleMap := aupsert s.roleMap (to_upper roleName) rl',
          objectPermissions := rows })

/-- Model of `SysCatalog::revokeDBObjectPrivileges_unsafe`: clears the
object's bits from the role's stored entry and deletes the persisted row
when the resulting privilege set is empty, upserting it otherwise. -/
def revokeDBObjectPrivilegesUnlocked (s : SysState) (roleName : String)
    (object : DBObject) : Option String × SysState :=
  if roleName = MAPD_ROOT_USER then
    (some ("Request to revoke privileges from " ++ roleName ++
      " failed because privileges can not be revoked from mapd root user."), s)
  else
    match getMetadataForRole s roleName with
    | none =>
      (some ("Request to revoke privileges from " ++ roleName ++
        " failed because role or user with this name does not exist."), s)
    | some rl =>
      match groupRevokePrivileges rl object with
      | none =>
        (some ("Can not revoke privileges because role " ++ roleName ++
          " has no privileges to this object."), s)
      | some (object', rl') =>
        let s1 := { s with roleMap := aupsert s.roleMap (to_upper roleName) rl' }
        if privHasAny object'.privileges then
          let rows :=
            insertOrUpdateObjectPrivileges s1.objectPermissions roleName
              rl.userPrivateRole object'
          (none, { s1 with objectPermissions := rows })
        else
          let rows :=
            deleteObjectPrivileges s1.objectPermissions roleName
              rl.userPrivateRole object'
          (none, { s1 with objectPermissions := rows })

/-- Model of `SysCatalog::grantDefaultPrivilegesToRole_unsafe`: grants the
(empty) default privilege object on the current database to the role.
The `issuper` broader-grant branch is commented out in the source, so the
flag has no effect. -/
def grantDefaultPrivilegesToRoleUnlocked (s : SysState) (name : String)
    (_issuper : Bool) : Option String × SysState :=
  let objKey : DBObjectKey :=
    { permissionType := DBObjectType.DatabaseDBObjectType,
      dbId := s.currentDbId, objectId := -1 }
  let dbObject : DBObject :=
    { objectKey := objKey, objectName := s.currentDbName,
      privileges := 0, ownerId := 0 }
  grantDBObjectPrivilegesUnlocked s name dbObject

/-- Model of `SysCatalog::grantRole_unsafe`.  Granting an already-held
role leaves both memory and store untouched. -/
def grantRoleUnlocked (s : SysState) (roleName userName : String) :
    Option String × SysState :=
  match getMetadataForRole s roleName with
  | none =>
    (some ("Request to grant role " ++ roleName ++
      " failed because role with this name does not exist."), s)
  | some _ =>
    match getMetadataForUser s userName with
    | none =>
      (some ("Request to grant role to user " ++ userName ++
        " failed because user with this name does not exist."), s)
    | some user =>
      let roleKey := to_upper roleName
      let found := getMetadataForUserRole s user.userId
      let url :=
        found.getD { userId := user.userId, userName := userName, groups := [] }
      let s1 :=
        if found.isSome then s
        else { s with userRoleMap := aupsert s.userRoleMap user.userId url }
      if userHasRole url roleKey then (none, s1)
      else
        let url' := userGrantRole url roleKey
        (none,
          { s1 with
            userRoleMap := aupsert s1.userRoleMap user.userId url',
            mapdRoles := s1.mapdRoles ++ [(roleName, userName)] })

/-- Model of `SysCatalog::revokeRole_unsafe`.  Revoking a role the user
does not hold throws; revoking the last membership destroys the
`UserRole` object (the `userRoleMap_` entry is erased). -/
def revokeRoleUnlocked (s : SysState) (roleName userName : String) :
    Option String × SysState :=
  match getMetadataForRole s roleName with
  | none =>
    (some ("Request to revoke role " ++ roleName ++
      " failed because role with this name does not exist."), s)
  | some _ =>
    match getMetadataForUser s userName with
    | none =>
      (some ("Request to revoke role from user " ++ userName ++
        " failed because user with this name does not exist."), s)
    | some user =>
      let roleKey := to_upper roleName
      match getMetadataForUserRole s user.userId with
      | none =>
        (some ("Request to revoke role " ++ roleName ++ " from user " ++ userName ++
          " failed because this role has not been granted to the user."), s)
      | some url =>
        if !userHasRole url roleKey then
          (some ("Request to revoke role " ++ roleName ++ " from user " ++ userName ++
            " failed because this role has not been granted to the user."), s)
        else
          let url' := userRevokeRole url roleKey
          let s1 :=
            if userMembershipSize url' = 0 then
              { s with userRoleMap := aerase s.userRoleMap user.userId }
            else
              { s with userRoleMap := aupsert s.userRoleMap user.userId url' }
          let rows :=
            s1.mapdRoles.filter (fun rv => !(rv.1 == roleName && rv.2 == userName))
          (none, { s1 with mapdRoles := rows })

/-- Restore the persistent-store components of a `SysState` from `orig`
while keeping the in-memory role graph of `cur` — the effect of
`ROLLBACK TRANSACTION` after in-memory mutations already happened. -/
def rollbackSysStore (orig cur : SysState) : SysState :=
  { cur with
    users := orig.users, nextUserId := orig.nextUserId,
    mapdRoles := orig.mapdRoles, objectPermissions := orig.objectPermissions }

/-- Model of `SysCatalog::execInTransaction`: run the operation and roll
the persistent store back on error. -/
def execInTransaction (f : SysState → Option String × SysState)
    (s : SysState) : Option String × SysState :=
  match f s with
  | (some e, s') => (some e, rollbackSysStore s s')
  | (none, s') => (none, s')

/-- Model of the public `SysCatalog::createRole`. -/
def createRole (s : SysState) (roleName : String) (userPrivateRole : Bool) :
    Option String × SysState :=
  execInTransaction (fun st => createRoleUnlocked st roleName userPrivateRole) s

/-- Model of the public `SysCatalog::grantRole`. -/
def grantRole (s : SysState) (roleName userName : String) :
    Option String × SysState :=
  execInTransaction (fun st => grantRoleUnlocked st roleName userName) s

/-- Model of the public `SysCatalog::revokeRole`. -/
def revokeRole (s : SysState) (roleName userName : String) :
    Option String × SysState :=
  execInTransaction (fun st => revokeRoleUnlocked st roleName userName) s

/-- Model of `SysCatalog::createUser`: duplicate-name checks, then one
transaction inserting the user row and (with RBAC on) creating the
private role, granting it the default privileges and binding it to the
user.  On any error inside the transaction the store is rolled back. -/
def createUser (s : SysState) (name passwd : String) (issuper : Bool) :
    Option String × SysState :=
  if (getMetadataForUser s name).isSome then
    (some ("User " ++ name ++ " already exists."), s)
  else if arePrivilegesOn s && (getMetadataForRole s name).isSome then
    (some ("User name " ++ name ++
      " is same as one of role names. User and role names should be unique."), s)
  else
    let newUser : UserMetadata :=
      { userId := s.nextUserId, userName := name, passwd := passwd, isSuper := issuper }
    let s1 := { s with users := s.users ++ [newUser], nextUserId := s.nextUserId + 1 }
    if arePrivilegesOn s then
      match createRoleUnlocked s1 name true with
      | (some e, s2) => (some e, rollbackSysStore s s2)
      | (none, s2) =>
        match grantDefaultPrivilegesToRoleUnlocked s2 name issuper with
        | (some e, s3) => (some e, rollbackSysStore s s3)
        | (none, s3) =>
          match grantRoleUnlocked s3 name name with
          | (some e, s4) => (some e, rollbackSysStore s s4)
          | (none, s4) => (none, s4)
    else (none, s1)

/-! ## Sample states used by witnesses and counterexamples -/

/-- Sample securable-object key (a table object). -/
def sampleKey : DBObjectKey :=
  { permissionType := DBObjectType.TableDBObjectType, dbId := 1, objectId := 7 }

/-- Sample group role holding privilege bits 5 on `sampleKey`. -/
def sampleRole : GroupRole :=
  { roleName := "payroll", userPrivateRole := false,
    dbObjectMap :=
      [(sampleKey,
        { objectKey := sampleKey, objectName := "t", privileges := 5, ownerId := 0 })] }

/-- Sample non-super user. -/
def bobUser : UserMetadata :=
  { userId := 1, userName := "bob", passwd := "pw", isSuper := false }

/-- Sample `UserRole` for `bob`, member of `payroll` only. -/
def bobURL : UserRole := { userId := 1, userName := "bob", groups := ["PAYROLL"] }

/-- Sample system state: user `bob` holds role `payroll`. -/
def sampleSys : SysState :=
  { users := [bobUser],
    nextUserId := 2,
    roleMap := [("PAYROLL", sampleRole)],
    userRoleMap := [(1, bobURL)],
    mapdRoles := [("payroll", "bob")],
    objectPermissions := [],
    checkPrivilegesEnabled := true,
    currentDbName := "mapd", currentDbId := 1 }

/-- Sample system state where `bob` exists but has no `UserRole`. -/
def sampleSysNoUserRole : SysState := { sampleSys with userRoleMap := [] }

/-- Sample privilege request: bits 4 on `sampleKey`. -/
def sampleReq : DBObject :=
  { objectKey := sampleKey, objectName := "t", privileges := 4, ownerId := 0 }

/-- Second sample key, not present in any role's privilege map. -/
def sampleKey2 : DBObjectKey :=
  { permissionType := DBObjectType.TableDBObjectType, dbId := 1, objectId := 9 }

/-- Sample grant/revoke object: bits 4 on `sampleKey2`. -/
def sampleReq2 : DBObject :=
  { objectKey := sampleKey2, objectName := "t2", privileges := 4, ownerId := 0 }

/-! ## C1 -/

/-- C1: `SysCatalog::checkPrivileges(user, objects)` on a non-empty object
list returns true for a super user, and otherwise returns exactly whether
every object's required privilege bits are contained in the union, over
all `GroupRole`s granted to the user's `UserRole`, of the bits stored
under the object's `DBObjectKey` (so it is false as soon as any object
fails). -/
theorem checkPrivileges_correct (s : SysState) (u : UserMetadata)
    (objs : List DBObject) (hne : objs ≠ []) :
    (u.isSuper = true → checkPrivileges s u objs = some true) ∧
    (u.isSuper = false → ∀ url, getMetadataForUserRole s u.userId = some url →
      checkPrivileges s u objs =
        some (objs.all (fun o =>
          privContains (userClosure s url.groups o.objectKey) o.privileges))) := by
  constructor
  · intro h
    simp [checkPrivileges, h]
  · intro h url hurl
    simp [checkPrivileges, h, hurl, userRoleCheckPrivileges]

/-- Witness for C1 at a concrete state: `bob` holds bits 5 via `payroll`,
and the check for required bits 4 evaluates to true. -/
theorem checkPrivileges_correct_witness :
    ([sampleReq] ≠ ([] : List DBObject)) ∧
    ((bobUser.isSuper = true → checkPrivileges sampleSys bobUser [sampleReq] = some true) ∧
     (bobUser.isSuper = false →
       ∀ url, getMetadataForUserRole sampleSys bobUser.userId = some url →
        checkPrivileges sampleSys bobUser [sampleReq] =
          some ([sampleReq].all (fun o =>
            privContains (userClosure sampleSys url.groups o.objectKey) o.privileges)))) :=
  ⟨by decide, checkPrivileges_correct sampleSys bobUser [sampleReq] (by decide)⟩

/-! ## C9 -/

/-- C9 counterexample: for the non-super user `bob` with no `UserRole`,
`SysCatalog::checkPrivileges` does not return a boolean at all — the
fatal `CHECK(user_rl)` assertion fires (modelled as `none`), refuting the
claim that the check path never throws or aborts and yields `false` in
this situation. -/
theorem checkPrivileges_aborts_without_userRole :
    checkPrivileges sampleSysNoUserRole bobUser [sampleReq] = none := by
  decide

/-- C9 amended: the check path returns a boolean result (never throws or
aborts) whenever the user is super or a `UserRole` exists for the user;
for a non-super user without a `UserRole` it aborts on `CHECK(user_rl)`
instead of returning false. -/
theorem checkPrivileges_total_with_userRole (s : SysState) (u : UserMetadata)
    (objs : List DBObject)
    (h : u.isSuper = true ∨ (getMetadataForUserRole s u.userId).isSome = true) :
    (checkPrivileges s u objs).isSome = true ∧
    (hasAnyPrivileges s u objs).isSome = true := by
  rcases h with h | h
  · simp [checkPrivileges, hasAnyPrivileges, h]
  · rcases Option.isSome_iff_exists.mp h with ⟨url, hurl⟩
    constructor
    · by_cases hs : u.isSuper <;> simp [checkPrivileges, hs, hurl]
    · by_cases hs : u.isSuper <;> simp [hasAnyPrivileges, hs, hurl]

/-- Witness for the amended C9 at a concrete state where the `UserRole`
exists. -/
theorem checkPrivileges_total_with_userRole_witness :
    (bobUser.isSuper = true ∨
      (getMetadataForUserRole sampleSys bobUser.userId).isSome = true) ∧
    ((checkPrivileges sampleSys bobUser [sampleReq]).isSome = true ∧
     (hasAnyPrivileges sampleSys bobUser [sampleReq]).isSome = true) :=
  ⟨Or.inr (by decide),
   checkPrivileges_total_with_userRole sampleSys bobUser [sampleReq]
     (Or.inr (by decide))⟩

/-! ## C5 -/

/-- C5: role-membership edges behave as idempotent sets —
`grantRole_unsafe` of an already-held role is a no-op (no duplicate edge,
no persisted change), `revokeRole_unsafe` of a role the user does not
hold fails with an error and changes nothing, and revoking the last
remaining membership erases the user's `UserRole` (and its membership
row). -/
theorem role_membership_edges (s : SysState) (roleName userName : String)
    (rl : GroupRole) (user : UserMetadata) (url : UserRole)
    (hrole : getMetadataForRole s roleName = some rl)
    (huser : getMetadataForUser s userName = some user)
    (hurl : getMetadataForUserRole s user.userId = some url) :
    (userHasRole url (to_upper roleName) = true →
       grantRoleUnlocked s roleName userName = (none, s)) ∧
    (userHasRole url (to_upper roleName) = false →
       (revokeRoleUnlocked s roleName userName).1.isSome = true ∧
       (revokeRoleUnlocked s roleName userName).2 = s) ∧
    (url.groups = [to_upper roleName] →
       (revokeRoleUnlocked s roleName userName).1 = none ∧
       getMetadataForUserRole
         (revokeRoleUnlocked s roleName userName).2 user.userId = none ∧
       (roleName, userName) ∉
         (revokeRoleUnlocked s roleName userName).2.mapdRoles) := by
  refine ⟨?_, ?_, ?_⟩
  · intro h
    simp [grantRoleUnlocked, hrole, huser, hurl, h]
  · intro h
    simp [revokeRoleUnlocked, hrole, huser, hurl, h]
  · intro h
    have hheld : userHasRole url (to_upper roleName) = true := by
      simp [userHasRole, h]
    have hempty : userRevokeRole url (to_upper roleName) = { url with groups := [] } := by
      simp [userRevokeRole, h]
    have hrun : revokeRoleUnlocked s roleName userName =
        (none,
          { s with
            userRoleMap := aerase s.userRoleMap user.userId,
            mapdRoles :=
              s.mapdRoles.filter (fun rv => !(rv.1 == roleName && rv.2 == userName)) }) := by
      simp [revokeRoleUnlocked, hrole, huser, hurl, hheld, hempty, userMembershipSize]
    refine ⟨by simp [hrun], ?_, ?_⟩
    · simp [hrun, getMetadataForUserRole, alookup_erase_self]
    · simp [hrun, List.mem_filter]

/-- Witness for C5 at the sample state: `bob` holds exactly `payroll`, so
the grant is a no-op and the revoke of the last membership destroys the
`UserRole`. -/
theorem role_membership_edges_witness :
    (getMetadataForRole sampleSys "payroll" = some sampleRole ∧
     getMetadataForUser sampleSys "bob" = some bobUser ∧
     getMetadataForUserRole sampleSys bobUser.userId = some bobURL) ∧
    (userHasRole bobURL (to_upper "payroll") = true →
      grantRoleUnlocked sampleSys "payroll" "bob" = (none, sampleSys)) ∧
    (bobURL.groups = [to_upper "payroll"] →
      (revokeRoleUnlocked sampleSys "payroll" "bob").1 = none ∧
      getMetadataForUserRole
        (revokeRoleUnlocked sampleSys "payroll" "bob").2 bobUser.userId = none ∧
      ("payroll", "bob") ∉
        (revokeRoleUnlocked sampleSys "payroll" "bob").2.mapdRoles) :=
  ⟨⟨by decide, by decide, by decide⟩,
   (role_membership_edges sampleSys "payroll" "bob" sampleRole bobUser bobURL
      (by decide) (by decide) (by decide)).1,
   (role_membership_edges sampleSys "payroll" "bob" sampleRole bobUser bobURL
      (by decide) (by decide) (by decide)).2.2⟩

/-! ## C6 -/

theorem nat_land_self (a : Nat) : a &&& a = a := by
  apply Nat.eq_of_testBit_eq
  intro i
  simp [Nat.testBit_land]

theorem privRemove_self (a : Nat) : privRemove a a = 0 := by
  simp [privRemove, nat_land_self]

/-- C6: granting privilege bits on an object to a role and then revoking
the same bits returns the role's stored privilege set for that object's
key to empty, and because the result is empty the persisted
`mapd_object_permissions` row for that role and object is deleted rather
than upserted (no row for the pair remains). -/
theorem grant_then_revoke_empties (s : SysState) (roleName : String)
    (o : DBObject) (rl : GroupRole)
    (hroot : roleName ≠ MAPD_ROOT_USER)
    (hrl : getMetadataForRole s roleName = some rl)
    (hnone : alookup rl.dbObjectMap o.objectKey = none) :
    ∃ s1 s2 rl2 e,
      grantDBObjectPrivilegesUnlocked s roleName o = (none, s1) ∧
      revokeDBObjectPrivilegesUnlocked s1 roleName o = (none, s2) ∧
      getMetadataForRole s2 roleName = some rl2 ∧
      alookup rl2.dbObjectMap o.objectKey = some e ∧
      e.privileges = 0 ∧
      ∀ r ∈ s2.objectPermissions,
        ¬(r.roleName = roleName ∧ r.permissionType = o.objectKey.permissionType ∧
          r.dbId = o.objectKey.dbId ∧ r.objectId = o.objectKey.objectId) := by
  have hgrantRl : groupGrantPrivileges rl o =
      { rl with dbObjectMap := aupsert rl.dbObjectMap o.objectKey o } := by
    simp [groupGrantPrivileges, hnone]
  set rl' : GroupRole :=
    { rl with dbObjectMap := aupsert rl.dbObjectMap o.objectKey o } with hrl'def
  have hstored : alookup rl'.dbObjectMap o.objectKey = some o :=
    alookup_upsert_self _ _ _
  set rows1 : List ObjectPermRow :=
    insertOrUpdateObjectPrivileges s.objectPermissions roleName
      rl.userPrivateRole { o with privileges := o.privileges } with hrows1def
  set s1 : SysState :=
    { s with
      roleMap := aupsert s.roleMap (to_upper roleName) rl',
      objectPermissions := rows1 } with hs1def
  have hg : grantDBObjectPrivilegesUnlocked s roleName o = (none, s1) := by
    simp [grantDBObjectPrivilegesUnlocked, hroot, hrl, hgrantRl, hstored, hs1def,
      hrows1def]
  have hrl1 : getMetadataForRole s1 roleName = some rl' := by
    simp [getMetadataForRole, hs1def, alookup_upsert_self]
  set e' : DBObject :=
    { o with privileges := privRemove o.privileges o.privileges } with hedef
  have hrevokeRl : groupRevokePrivileges rl' o =
      some (e', { rl' with dbObjectMap := aupsert rl'.dbObjectMap o.objectKey e' }) := by
    simp [groupRevokePrivileges, hstored, hedef]
  set rl2 : GroupRole :=
    { rl' with dbObjectMap := aupsert rl'.dbObjectMap o.objectKey e' } with hrl2def
  have heP : e'.privileges = 0 := privRemove_self o.privileges
  have hhasAny : privHasAny e'.privileges = false := by
    simp [privHasAny, heP, privRemove_self]
  set s2 : SysState :=
    { s1 with
      roleMap := aupsert s1.roleMap (to_upper roleName) rl2,
      objectPermissions :=
        deleteObjectPrivileges rows1 roleName rl'.userPrivateRole e' } with hs2def
  have hr : revokeDBObjectPrivilegesUnlocked s1 roleName o = (none, s2) := by
    simp [revokeDBObjectPrivilegesUnlocked, hroot, hrl1, hrevokeRl, hhasAny,
      hs2def, hrl2def]
  refine ⟨s1, s2, rl2, e', hg, hr, ?_, ?_, heP, ?_⟩
  · simp [getMetadataForRole, hs2def, alookup_upsert_self]
  · simp [hrl2def, alookup_upsert_self]
  · intro r hr hmatch
    obtain ⟨hm1, hm2, hm3, hm4⟩ := hmatch
    have hs2rows : s2.objectPermissions =
        deleteObjectPrivileges rows1 roleName rl'.userPrivateRole e' := by
      simp [hs2def]
    rw [hs2rows] at hr
    simp only [deleteObjectPrivileges, List.mem_filter] at hr
    obtain ⟨hrin1, hpred2⟩ := hr
    simp only [hrows1def, insertOrUpdateObjectPrivileges, List.mem_append,
      List.mem_filter, List.mem_singleton] at hrin1
    rcases hrin1 with ⟨_, hpred1⟩ | hnew
    · -- a pre-existing row matching the key was removed by the upsert
      simp [hm1, hm2, hm3, hm4] at hpred1
    · -- the freshly upserted row is removed by the delete
      subst hnew
      simp [hedef] at hpred2

/-- Witness for C6 at a concrete state: grant bits 4 on a fresh object to
`payroll`, then revoke them. -/
theorem grant_then_revoke_empties_witness :
    ("payroll" ≠ MAPD_ROOT_USER ∧
     getMetadataForRole sampleSys "payroll" = some sampleRole ∧
     alookup sampleRole.dbObjectMap sampleKey2 = none) ∧
    (∃ s1 s2 rl2 e,
      grantDBObjectPrivilegesUnlocked sampleSys "payroll" sampleReq2 = (none, s1) ∧
      revokeDBObjectPrivilegesUnlocked s1 "payroll" sampleReq2 = (none, s2) ∧
      getMetadataForRole s2 "payroll" = some rl2 ∧
      alookup rl2.dbObjectMap sampleReq2.objectKey = some e ∧
      e.privileges = 0 ∧
      ∀ r ∈ s2.objectPermissions,
        ¬(r.roleName = "payroll" ∧
          r.permissionType = sampleReq2.objectKey.permissionType ∧
          r.dbId = sampleReq2.objectKey.dbId ∧
          r.objectId = sampleReq2.objectKey.objectId)) :=
  ⟨⟨by decide, by decide, by decide⟩,
   grant_then_revoke_empties sampleSys "payroll" sampleReq2 sampleRole
     (by decide) (by decide) (by decide)⟩

/-! ## C8 -/

/-- Sample state with user `bob` and no roles at all. -/
def sampleSysUsersOnly : SysState :=
  { sampleSys with roleMap := [], userRoleMap := [], mapdRoles := [] }

/-- C8 counterexample: the claim says `createRole(name, isPrivate)` fails
whenever a user of the same name exists, but for a private role
(`isPrivate = true`) the user-name clash check is skipped: with user
`bob` present and no role `bob`, `createRole("bob", true)` succeeds. -/
theorem createRole_private_ignores_user_clash :
    (getMetadataForUser sampleSysUsersOnly "bob").isSome = true ∧
    (createRole sampleSysUsersOnly "bob" true).1 = none := by
  decide

/-- C8 amended: `createRole(name, isPrivate)` fails if a role of that
name exists; it additionally fails on a user-name clash only when the
role is not private (`isPrivate = false`) — for a private role the
user-name check is skipped (private roles deliberately carry their
user's name), so with no existing role the call succeeds. -/
theorem createRole_name_checks (s : SysState) (roleName : String)
    (userPrivateRole : Bool) :
    ((getMetadataForRole s roleName).isSome = true →
       (createRole s roleName userPrivateRole).1.isSome = true ∧
       (createRole s roleName userPrivateRole).2 = s) ∧
    (userPrivateRole = false → (getMetadataForUser s roleName).isSome = true →
       (createRole s roleName userPrivateRole).1.isSome = true ∧
       (createRole s roleName userPrivateRole).2 = s) ∧
    (userPrivateRole = true → (getMetadataForRole s roleName).isSome = false →
       (createRole s roleName userPrivateRole).1 = none) := by
  refine ⟨?_, ?_, ?_⟩
  · intro h
    by_cases hu : (!userPrivateRole && (getMetadataForUser s roleName).isSome) = true
    · simp [createRole, execInTransaction, createRoleUnlocked, hu, rollbackSysStore]
    · simp only [Bool.not_eq_true] at hu
      simp [createRole, execInTransaction, createRoleUnlocked, hu, h, rollbackSysStore]
  · intro hb h
    simp [createRole, execInTransaction, createRoleUnlocked, hb, h, rollbackSysStore]
  · intro hb h
    simp [createRole, execInTransaction, createRoleUnlocked, hb, h]

/-- Witness for the amended C8: creating a non-private role named after
the existing user `bob` fails and leaves the state unchanged. -/
theorem createRole_name_checks_witness :
    (false = false) ∧
    ((getMetadataForUser sampleSysUsersOnly "bob").isSome = true) ∧
    ((createRole sampleSysUsersOnly "bob" false).1.isSome = true ∧
     (createRole sampleSysUsersOnly "bob" false).2 = sampleSysUsersOnly) :=
  ⟨rfl, by decide,
   (createRole_name_checks sampleSysUsersOnly "bob" false).2.1 rfl (by decide)⟩

/-! ## C2 -/

theorem createRoleUnlocked_users (s : SysState) (r : String) (b : Bool) :
    ((createRoleUnlocked s r b).2).users = s.users := by
  unfold createRoleUnlocked
  split
  · rfl
  · split
    · rfl
    · rfl

theorem createRoleUnlocked_nextUserId (s : SysState) (r : String) (b : Bool) :
    ((createRoleUnlocked s r b).2).nextUserId = s.nextUserId := by
  unfold createRoleUnlocked
  split
  · rfl
  · split
    · rfl
    · rfl

theorem grantDBObjectPrivilegesUnlocked_users (s : SysState) (r : String)
    (o : DBObject) : ((grantDBObjectPrivilegesUnlocked s r o).2).users = s.users := by
  unfold grantDBObjectPrivilegesUnlocked
  split
  · rfl
  · cases getMetadataForRole s r <;> simp

theorem grantDBObjectPrivilegesUnlocked_nextUserId (s : SysState) (r : String)
    (o : DBObject) :
    ((grantDBObjectPrivilegesUnlocked s r o).2).nextUserId = s.nextUserId := by
  unfold grantDBObjectPrivilegesUnlocked
  split
  · rfl
  · cases getMetadataForRole s r <;> simp

theorem grantDefaultPrivilegesToRoleUnlocked_users (s : SysState) (n : String)
    (b : Bool) : ((grantDefaultPrivilegesToRoleUnlocked s n b).2).users = s.users :=
  grantDBObjectPrivilegesUnlocked_users s n _

theorem grantDefaultPrivilegesToRoleUnlocked_nextUserId (s : SysState) (n : String)
    (b : Bool) :
    ((grantDefaultPrivilegesToRoleUnlocked s n b).2).nextUserId = s.nextUserId :=
  grantDBObjectPrivilegesUnlocked_nextUserId s n _

theorem grantRoleUnlocked_users (s : SysState) (r u : String) :
    ((grantRoleUnlocked s r u).2).users = s.users := by
  unfold grantRoleUnlocked
  cases getMetadataForRole s r <;> simp
  cases getMetadataForUser s u <;> simp
  split <;> split <;> rfl

theorem grantRoleUnlocked_nextUserId (s : SysState) (r u : String) :
    ((grantRoleUnlocked s r u).2).nextUserId = s.nextUserId := by
  unfold grantRoleUnlocked
  cases getMetadataForRole s r <;> simp
  cases getMetadataForUser s u <;> simp
  split <;> split <;> rfl

/-- The success path of `createUser`: the only state change to the user
table is appending the one fresh row, and success implies the duplicate
checks were passed. -/
theorem createUser_success_users (s : SysState) (n p : String) (b : Bool)
    (s1 : SysState) (h : createUser s n p b = (none, s1)) :
    s1.users = s.users ++
      [{ userId := s.nextUserId, userName := n, passwd := p, isSuper := b }] ∧
    getMetadataForUser s n = none := by
  unfold createUser at h
  by_cases h1 : (getMetadataForUser s n).isSome
  · simp [h1] at h
  · have h1' : getMetadataForUser s n = none := Option.not_isSome_iff_eq_none.mp h1
    refine ⟨?_, h1'⟩
    simp only [h1', Option.isSome_none, Bool.false_eq_true, if_false] at h
    by_cases h2 : (arePrivilegesOn s && (getMetadataForRole s n).isSome) = true
    · simp [h2] at h
    · simp only [h2, if_false] at h
      by_cases h3 : arePrivilegesOn s = true
      · simp only [h3, if_true] at h
        rcases hcr : createRoleUnlocked
            { s with
              users := s.users ++
                [{ userId := s.nextUserId, userName := n, passwd := p, isSuper := b }],
              nextUserId := s.nextUserId + 1 } n true with ⟨e1, s2⟩
        rw [hcr] at h
        cases e1 with
        | some e => simp at h
        | none =>
          simp only at h
          rcases hgd : grantDefaultPrivilegesToRoleUnlocked s2 n b with ⟨e2, s3⟩
          rw [hgd] at h
          cases e2 with
          | some e => simp at h
          | none =>
            simp only at h
            rcases hgr : grantRoleUnlocked s3 n n with ⟨e3, s4⟩
            rw [hgr] at h
            cases e3 with
            | some e => simp at h
            | none =>
              simp only at h
              injection h with hinj1 hinj2
              subst hinj2
              have u4 : s4.users = s3.users := by
                have := grantRoleUnlocked_users s3 n n
                rw [hgr] at this
                exact this
              have u3 : s3.users = s2.users := by
                have := grantDefaultPrivilegesToRoleUnlocked_users s2 n b
                rw [hgd] at this
                exact this
              have u2 : s2.users = s.users ++
                  [{ userId := s.nextUserId, userName := n, passwd := p,
                     isSuper := b }] := by
                have := createRoleUnlocked_users
                  { s with
                    users := s.users ++
                      [{ userId := s.nextUserId, userName := n, passwd := p,
                         isSuper := b }],
                    nextUserId := s.nextUserId + 1 } n true
                rw [hcr] at this
                exact this
              rw [u4, u3, u2]
      · simp only [h3, if_false] at h
        injection h with hinj1 hinj2
        subst hinj2
        rfl

/-- C2: `SysCatalog::createUser` fails when a user of that name exists
(and, with RBAC enabled, when a role of that name exists); on any failure
the persistent store (user rows, membership rows, permission rows) is
unchanged; and after a successful `createUser` a second call with the
same name fails, leaves the state untouched, and exactly one user row of
that name exists. -/
theorem createUser_duplicate_and_rollback (s : SysState) (name pw : String)
    (issuper : Bool) :
    ((getMetadataForUser s name).isSome = true →
       createUser s name pw issuper =
         (some ("User " ++ name ++ " already exists."), s)) ∧
    (arePrivilegesOn s = true → (getMetadataForUser s name).isSome = false →
       (getMetadataForRole s name).isSome = true →
       (createUser s name pw issuper).1.isSome = true ∧
       (createUser s name pw issuper).2 = s) ∧
    (∀ e s', createUser s name pw issuper = (some e, s') →
       s'.users = s.users ∧ s'.nextUserId = s.nextUserId ∧
       s'.mapdRoles = s.mapdRoles ∧ s'.objectPermissions = s.objectPermissions) ∧
    (∀ s1, createUser s name pw issuper = (none, s1) →
       (createUser s1 name pw issuper).1.isSome = true ∧
       (createUser s1 name pw issuper).2 = s1 ∧
       (s1.users.filter (fun u => u.userName = name)).length = 1) := by
  refine ⟨?_, ?_, ?_, ?_⟩
  · intro h
    simp [createUser, h]
  · intro hp h1 h2
    have hp' : s.checkPrivilegesEnabled = true := hp
    simp [createUser, h1, h2, hp', arePrivilegesOn]
  · intro e s' h
    unfold createUser at h
    by_cases h1 : (getMetadataForUser s name).isSome
    · simp only [h1, if_true] at h
      injection h with hinj1 hinj2
      subst hinj2
      exact ⟨rfl, rfl, rfl, rfl⟩
    · simp only [h1, Bool.false_eq_true, if_false] at h
      by_cases h2 : (arePrivilegesOn s && (getMetadataForRole s name).isSome) = true
      · simp only [h2, if_true] at h
        injection h with hinj1 hinj2
        subst hinj2
        exact ⟨rfl, rfl, rfl, rfl⟩
      · simp only [h2, if_false] at h
        by_cases h3 : arePrivilegesOn s = true
        · simp only [h3, if_true] at h
          rcases hcr : createRoleUnlocked
              { s with
                users := s.users ++
                  [{ userId := s.nextUserId, userName := name, passwd := pw,
                     isSuper := issuper }],
                nextUserId := s.nextUserId + 1 } name true with ⟨e1, s2⟩
          rw [hcr] at h
          cases e1 with
          | some e1' =>
            simp only at h
            injection h with hinj1 hinj2
            subst hinj2
            exact ⟨rfl, rfl, rfl, rfl⟩
          | none =>
            simp only at h
            rcases hgd : grantDefaultPrivilegesToRoleUnlocked s2 name issuper
              with ⟨e2, s3⟩
            rw [hgd] at h
            cases e2 with
            | some e2' =>
              simp only at h
              injection h with hinj1 hinj2
              subst hinj2
              exact ⟨rfl, rfl, rfl, rfl⟩
            | none =>
              simp only at h
              rcases hgr : grantRoleUnlocked s3 name name with ⟨e3, s4⟩
              rw [hgr] at h
              cases e3 with
              | some e3' =>
                simp only at h
                injection h with hinj1 hinj2
                subst hinj2
                exact ⟨rfl, rfl, rfl, rfl⟩
              | none => simp at h
        · simp only [h3, if_false] at h
          simp at h
  · intro s1 h
    obtain ⟨husers, hnone⟩ := createUser_success_users s name pw issuper s1 h
    have hmem : ∃ u ∈ s1.users, u.userName = name := by
      refine ⟨{ userId := s.nextUserId, userName := name, passwd := pw,
                isSuper := issuper }, ?_, rfl⟩
      rw [husers]
      simp
    have hsome : (getMetadataForUser s1 name).isSome = true := by
      unfold getMetadataForUser
      rw [List.find?_isSome]
      obtain ⟨u, hu, hn⟩ := hmem
      exact ⟨u, hu, by simp [hn]⟩
    refine ⟨?_, ?_, ?_⟩
    · simp [createUser, hsome]
    · simp [createUser, hsome]
    · have hfilter0 : s.users.filter (fun u => u.userName = name) = [] := by
        rw [List.filter_eq_nil_iff]
        intro u hu
        have := List.find?_eq_none.mp hnone u hu
        simpa using this
      rw [husers, List.filter_append, hfilter0]
      simp

/-- Witness for C2 at a concrete state: creating `bob` in a fresh empty
system and then creating `bob` again. -/
theorem createUser_duplicate_and_rollback_witness :
    ((getMetadataForUser sampleSys "bob").isSome = true →
       createUser sampleSys "bob" "pw2" false =
         (some ("User " ++ "bob" ++ " already exists."), sampleSys)) ∧
    ((getMetadataForUser sampleSys "bob").isSome = true) :=
  ⟨(createUser_duplicate_and_rollback sampleSys "bob" "pw2" false).1, by decide⟩

/-! ## Catalog (per-database) data model -/

/-- SQL type discriminators used by the embedded operations. -/
inductive SQLTypes : Type where
  | kNULLT
  | kBOOLEAN
  | kTINYINT
  | kINT
  | kBIGINT
  | kTEXT
  | kARRAY
  | kPOINT
  | kLINESTRING
  | kPOLYGON
  | kMULTIPOLYGON
deriving DecidableEq, Repr

/-- Model of the `IS_GEO` type predicate. -/
def IS_GEO : SQLTypes → Bool
  | SQLTypes.kPOINT => true
  | SQLTypes.kLINESTRING => true
  | SQLTypes.kPOLYGON => true
  | SQLTypes.kMULTIPOLYGON => true
  | _ => false

/-- Model of `EncodingType` (only the encodings the claims exercise). -/
inductive EncodingType : Type where
  | kENCODING_NONE
  | kENCODING_DICT
deriving DecidableEq, Repr

/-- Model of `SQLTypeInfo` with the fields read or written by the
embedded operations. -/
structure SQLTypeInfo where
  type : SQLTypes := SQLTypes.kNULLT
  subtype : SQLTypes := SQLTypes.kNULLT
  dimension : Int := 0
  scale : Int := 0
  notnull : Bool := false
  compression : EncodingType := EncodingType.kENCODING_NONE
  comp_param : Int := 0
  size : Int := -1
deriving DecidableEq, Repr

/-- Model of `SQLTypeInfo::is_array`. -/
def SQLTypeInfo.is_array (t : SQLTypeInfo) : Bool := t.type = SQLTypes.kARRAY

/-- Model of `ColumnDescriptor`. -/
structure ColumnDescriptor where
  tableId : Int := 0
  columnId : Int := 0
  columnName : String
  columnType : SQLTypeInfo := {}
  isSystemCol : Bool := false
  isVirtualCol : Bool := false
  virtualExpr : String := ""
  isDeletedCol : Bool := false
deriving DecidableEq, Repr

/-- Model of `TableDescriptor` with the fields the claims exercise;
`persistenceDisk` models `persistenceLevel == DISK_LEVEL` (a temporary
table has `CPU_LEVEL`). -/
structure TableDescriptor where
  tableId : Int := -1
  tableName : String
  nColumns : Int := 0
  isView : Bool := false
  nShards : Int := 0
  shard : Int := -1
  shardedColumnId : Int := 0
  hasDeletedCol : Bool := false
  persistenceDisk : Bool := true
  userId : Int := 0
  viewSQL : String := ""
deriving DecidableEq, Repr

/-- Model of `DictDescriptor` (the dbId half of `dictRef` is the
catalog's current database and is left implicit). -/
structure DictDescriptor where
  dictId : Int
  dictName : String
  dictNBits : Int
  dictIsShared : Bool
  refcount : Int
  dictFolderPath : String
  dictIsTemp : Bool
deriving DecidableEq, Repr

/-- Row of the persisted `mapd_dictionaries` table. -/
structure StoreDictRow where
  dictId : Int
  name : String
  nbits : Int
  is_shared : Bool
  refcount : Int
deriving DecidableEq, Repr

/-- Model of `Parser::SharedDictionaryDef` (referencing column, foreign
table, foreign column). -/
structure SharedDictionaryDef where
  column : String
  foreign_table : String
  foreign_column : String
deriving DecidableEq, Repr

/-- Model of a per-database `Catalog`: the SQLite store tables
(`mapd_tables`, `mapd_columns`, `mapd_dictionaries`,
`mapd_logical_to_physical`, `mapd_views`) with their autoincrement
counters, and the in-memory registries.  The two table registries model
the shared-pointer pair (`tableDescriptorMap_` maps the normalised name
to the table id); the two column registries each hold the descriptor
(mirroring the shared heap object). -/
structure CatalogState where
  storeTables : List TableDescriptor
  storeColumns : List ColumnDescriptor
  storeDicts : List StoreDictRow
  storeLogicalToPhysical : List (Int × Int)
  storeViews : List (Int × String)
  nextTableId : Int
  nextDictId : Int
  tableDescriptorMap : List (String × Int)
  tableDescriptorMapById : List (Int × TableDescriptor)
  columnDescriptorMap : List ((Int × String) × ColumnDescriptor)
  columnDescriptorMapById : List ((Int × Int) × ColumnDescriptor)
  dictDescriptorMapByRef : List (Int × DictDescriptor)
  deletedColumnPerTable : List (Int × Int)
  logicalToPhysicalTableMapById : List (Int × List Int)
  nextTempTableId : Int
  nextTempDictId : Int
  currentDbId : Int
  basePath : String
deriving DecidableEq, Repr

/-! ## Catalog::removeTableFromMap (dictionary refcount decrement) -/

/-- The column-id index list `1 .. nColumns` iterated by the source's
`for (int i = 1; i <= ncolumns; i++)` loops. -/
def colIndexList (n : Int) : List Int :=
  (List.range n.toNat).map (fun k : Nat => (k : Int) + 1)

/-- One iteration of the column-deletion loop of `removeTableFromMap`:
erase the column from both registries and, for a dictionary-encoded
column with a non-zero dictionary id, decrement the dictionary refcount,
erasing the dictionary (and recording its on-disk folder for removal
unless the table is temporary) when the refcount reaches zero.  `none`
models the fatal `CHECK`s (missing column / missing dictionary /
`CHECK_GE(refcount, 1)`). -/
def removeColumnStep (isTemp : Bool) (tableId : Int)
    (acc : CatalogState × List Int) (i : Int) : Option (CatalogState × List Int) :=
  match alookup acc.1.columnDescriptorMapById (tableId, i) with
  | none => none
  | some cd =>
    let s :=
      { acc.1 with
        columnDescriptorMapById := aerase acc.1.columnDescriptorMapById (tableId, i),
        columnDescriptorMap :=
          aerase acc.1.columnDescriptorMap (tableId, to_upper cd.columnName) }
    let dictId := cd.columnType.comp_param
    if cd.columnType.compression = EncodingType.kENCODING_DICT ∧ dictId ≠ 0 then
      match alookup s.dictDescriptorMapByRef dictId with
      | none => none
      | some dd =>
        if dd.refcount < 1 then none
        else if dd.refcount - 1 = 0 then
          some ({ s with dictDescriptorMapByRef := aerase s.dictDescriptorMapByRef dictId },
            acc.2 ++ (if isTemp then [] else [dictId]))
        else
          let dicts' :=
            aupsert s.dictDescriptorMapByRef dictId { dd with refcount := dd.refcount - 1 }
          some ({ s with dictDescriptorMapByRef := dicts' }, acc.2)
    else some (s, acc.2)

/-- Model of `Catalog::removeTableFromMap`: erase the table from both
table registries (and from the deleted-column side index when present),
then run the column-deletion loop.  Returns the new state together with
the ids of the dictionaries whose on-disk folder was removed
(`boost::filesystem::remove_all`); `none` models a throw or fatal
`CHECK`. -/
def removeTableFromMap (s : CatalogState) (tableName : String) (tableId : Int) :
    Option (CatalogState × List Int) :=
  match alookup s.tableDescriptorMapById tableId with
  | none => none
  | some td =>
    let sdel? : Option CatalogState :=
      if td.hasDeletedCol then
        match alookup s.deletedColumnPerTable tableId with
        | none => none
        | some _ =>
          some { s with deletedColumnPerTable := aerase s.deletedColumnPerTable tableId }
      else some s
    match sdel? with
    | none => none
    | some s0 =>
      let s1 :=
        { s0 with
          tableDescriptorMapById := aerase s0.tableDescriptorMapById tableId,
          tableDescriptorMap := aerase s0.tableDescriptorMap (to_upper tableName) }
      let isTemp := !td.persistenceDisk
      (colIndexList td.nColumns).foldlM (removeColumnStep isTemp tableId) (s1, [])

/-! ## Catalog::addReferenceToForeignDict (dictionary refcount increment) -/

/-- Model of the anonymous-namespace helper `get_foreign_col`: resolve
the foreign table by name, then the foreign column by name. -/
def get_foreign_col (s : CatalogState) (shared_dict_def : SharedDictionaryDef) :
    Option ColumnDescriptor :=
  match alookup s.tableDescriptorMap (to_upper shared_dict_def.foreign_table) with
  | none => none
  | some tid => alookup s.columnDescriptorMap (tid, to_upper shared_dict_def.foreign_column)

/-- Model of `Catalog::addReferenceToForeignDict`: copy the foreign
column's type into the referencing column, then increment the refcount of
the referenced dictionary both in memory and in the persisted
`mapd_dictionaries` row.  `none` models the fatal `CHECK`s. -/
def addReferenceToForeignDict (s : CatalogState)
    (referencing_column : ColumnDescriptor)
    (shared_dict_def : SharedDictionaryDef) :
    Option (CatalogState × ColumnDescriptor) :=
  match get_foreign_col s shared_dict_def with
  | none => none
  | some foreign_ref_col =>
    let cd := { referencing_column with columnType := foreign_ref_col.columnType }
    let dict_id := cd.columnType.comp_param
    match alookup s.dictDescriptorMapByRef dict_id with
    | none => none
    | some dd =>
      if dd.refcount < 1 then none
      else
        let s' :=
          { s with
            dictDescriptorMapByRef :=
              aupsert s.dictDescriptorMapByRef dict_id
                { dd with refcount := dd.refcount + 1 },
            storeDicts :=
              s.storeDicts.map (fun r =>
                if r.dictId = dict_id then { r with refcount := r.refcount + 1 } else r) }
        some (s', cd)

/-! ## Catalog::createTable -/

/-- Physical coordinate sub-column appended for every geometry column. -/
def geoCoordsColumn (cd : ColumnDescriptor) : ColumnDescriptor :=
  { columnName := cd.columnName ++ "_coords",
    columnType :=
      { type := SQLTypes.kARRAY, notnull := true, subtype := SQLTypes.kTINYINT } }

/-- Physical ring-sizes sub-column for (multi)polygon columns. -/
def geoRingSizesColumn (cd : ColumnDescriptor) : ColumnDescriptor :=
  { columnName := cd.columnName ++ "_ring_sizes",
    columnType :=
      { type := SQLTypes.kARRAY, notnull := true, subtype := SQLTypes.kINT } }

/-- Physical poly-rings sub-column for multipolygon columns. -/
def geoPolyRingsColumn (cd : ColumnDescriptor) : ColumnDescriptor :=
  { columnName := cd.columnName ++ "_poly_rings",
    columnType :=
      { type := SQLTypes.kARRAY, notnull := true, subtype := SQLTypes.kINT } }

/-- Physical render-group sub-column for (multi)polygon columns. -/
def geoRenderGroupColumn (cd : ColumnDescriptor) : ColumnDescriptor :=
  { columnName := cd.columnName ++ "_render_group",
    columnType := { type := SQLTypes.kINT, notnull := true } }

/-- One iteration of the declared-column loop of `createTable`: reject
the reserved name `rowid`, expand geometry columns into themselves plus
their physical storage sub-columns, pass every other column through. -/
def expandColumn (cd : ColumnDescriptor) : Except String (List ColumnDescriptor) :=
  if cd.columnName = "rowid" then
    Except.error "Cannot create column with name rowid. rowid is a system defined column."
  else if IS_GEO cd.columnType.type then
    match cd.columnType.type with
    | SQLTypes.kPOINT => Except.ok [cd, geoCoordsColumn cd]
    | SQLTypes.kLINESTRING => Except.ok [cd, geoCoordsColumn cd]
    | SQLTypes.kPOLYGON =>
      Except.ok [cd, geoCoordsColumn cd, geoRingSizesColumn cd, geoRenderGroupColumn cd]
    | SQLTypes.kMULTIPOLYGON =>
      Except.ok [cd, geoCoordsColumn cd, geoRingSizesColumn cd, geoPolyRingsColumn cd,
        geoRenderGroupColumn cd]
    | _ => Except.error "Unrecognized geometry type."
  else Except.ok [cd]

/-- The synthetic `rowid` column appended last (virtual in the default,
non-`MATERIALIZED_ROWID`, build). -/
def rowidColumn : ColumnDescriptor :=
  { columnName := "rowid", isSystemCol := true,
    columnType := { type := SQLTypes.kBIGINT, notnull := true },
    isVirtualCol := true,
    virtualExpr := "MAPD_FRAG_ID * MAPD_ROWS_PER_FRAG + MAPD_FRAG_ROW_ID" }

/-- The synthetic deleted-row marker column appended for versioned
tables (`td.hasDeletedCol`). -/
def deletedColumn : ColumnDescriptor :=
  { columnName := "$deleted$", isSystemCol := true, isVirtualCol := false,
    columnType := { type := SQLTypes.kBOOLEAN, notnull := true },
    isDeletedCol := true }

/-- The declared-column loop of `createTable`, accumulating the expanded
columns in declared order. -/
def expandColumnsLoop : List ColumnDescriptor → List ColumnDescriptor →
    Except String (List ColumnDescriptor)
  | [], acc => Except.ok acc
  | cd :: rest, acc =>
    match expandColumn cd with
    | Except.error e => Except.error e
    | Except.ok e => expandColumnsLoop rest (acc ++ e)

/-- The full column list built by `createTable` before ids are assigned:
the declared columns in order (each geometry column followed by its
physical sub-columns), then `rowid`, then — for versioned tables — the
deleted-row marker. -/
def buildTableColumns (cols : List ColumnDescriptor) (hasDeletedCol : Bool) :
    Except String (List ColumnDescriptor) :=
  match expandColumnsLoop cols [] with
  | Except.error e => Except.error e
  | Except.ok expanded =>
    Except.ok (expanded ++ [rowidColumn] ++
      (if hasDeletedCol then [deletedColumn] else []))

/-- Size/`comp_param` fixup shared by the dictionary-resolution helpers
(`set_size(comp_param / 8)` for non-array columns, then
`set_comp_param(dictId)`). -/
def applyDictToColumn (cd : ColumnDescriptor) (dictId : Int) : ColumnDescriptor :=
  let t0 := cd.columnType
  let t1 := if !t0.is_array then { t0 with size := t0.comp_param / 8 } else t0
  { cd with columnType := { t1 with comp_param := dictId } }

/-- Model of `Catalog::setColumnDictionary`: for a logical table, insert
a fresh `mapd_dictionaries` row (id from the autoincrement counter) and
build its `DictDescriptor`; for a physical shard leave the dictionary id
zero (a dummy entry).  Returns the updated store, column and dictionary
list. -/
def setColumnDictionary (s : CatalogState) (cd : ColumnDescriptor)
    (dds : List DictDescriptor) (td : TableDescriptor) (isLogicalTable : Bool) :
    CatalogState × ColumnDescriptor × List DictDescriptor :=
  if isLogicalTable then
    let dictId := s.nextDictId
    let dictName := td.tableName ++ "_" ++ cd.columnName ++ "_dict" ++ toString dictId
    let folderPath :=
      s.basePath ++ "/mapd_data/DB_" ++ toString s.currentDbId ++ "_DICT_" ++
        toString dictId
    let row : StoreDictRow :=
      { dictId := dictId, name := dictName, nbits := cd.columnType.comp_param,
        is_shared := false, refcount := 1 }
    let s' := { s with storeDicts := s.storeDicts ++ [row], nextDictId := s.nextDictId + 1 }
    let dd : DictDescriptor :=
      { dictId := dictId, dictName := dictName, dictNBits := cd.columnType.comp_param,
        dictIsShared := false, refcount := 1, dictFolderPath := folderPath,
        dictIsTemp := false }
    (s', applyDictToColumn cd dictId, dds ++ [dd])
  else
    let dd : DictDescriptor :=
      { dictId := 0, dictName := "Initial_key", dictNBits := cd.columnType.comp_param,
        dictIsShared := false, refcount := 1, dictFolderPath := "", dictIsTemp := false }
    (s, applyDictToColumn cd 0, dds ++ [dd])

/-- Modelled from the spec: `compress_reference_path` (defined in
`SharedDictionaryValidator.cpp`, outside the translated file) follows a
transitive shared-dictionary reference chain to its root definition. -/
def compressRefPathAux : Nat → SharedDictionaryDef → List SharedDictionaryDef →
    SharedDictionaryDef
  | 0, d, _ => d
  | n + 1, d, defs =>
    match defs.find? (fun e => e.column == d.foreign_column) with
    | none => d
    | some e => compressRefPathAux n e defs

/-- Modelled from the spec: follow the reference chain to its root. -/
def compress_reference_path (d : SharedDictionaryDef)
    (defs : List SharedDictionaryDef) : SharedDictionaryDef :=
  compressRefPathAux defs.length d defs

/-- Model of `Catalog::setColumnSharedDictionary`: if a shared-dictionary
definition names this column, resolve it — against a column of the table
being created (incrementing the pending `DictDescriptor`'s refcount, or
following the reference chain into another table), or directly against a
foreign table's column.  Returns whether the column was foreign-resolved
together with the updated store, column and dictionary list; errors model
the fatal `CHECK`s / empty query results. -/
def setColumnSharedDictionary (s : CatalogState) (cd : ColumnDescriptor)
    (cds : List ColumnDescriptor) (dds : List DictDescriptor)
    (td : TableDescriptor) (shared_dict_defs : List SharedDictionaryDef) :
    Except String (Bool × CatalogState × ColumnDescriptor × List DictDescriptor) :=
  match shared_dict_defs.find? (fun d => d.column == cd.columnName) with
  | none => Except.ok (false, s, cd, dds)
  | some shared_dict_def =>
    if shared_dict_def.foreign_table = td.tableName then
      match cds.find? (fun it => shared_dict_def.foreign_column == it.columnName) with
      | none => Except.error "CHECK failed: referenced column not found in created table"
      | some colIt =>
        let cd := { cd with columnType := colIt.columnType }
        let dictCols :=
          s.storeColumns.filter (fun c =>
            c.columnType.compression == EncodingType.kENCODING_DICT &&
            c.tableId == td.tableId && c.columnId == colIt.columnId)
        let dictRows :=
          s.storeDicts.filter (fun r =>
            dictCols.any (fun c => c.columnType.comp_param == r.dictId))
        match dictRows with
        | [] =>
          match dds.find? (fun it => it.dictId == colIt.columnType.comp_param) with
          | some dictIt =>
            if dictIt.refcount < 1 then Except.error "CHECK_GE failed"
            else
              let dds' :=
                dds.map (fun it =>
                  if it.dictId == colIt.columnType.comp_param then
                    { it with refcount := it.refcount + 1 }
                  else it)
              Except.ok (true, s, cd, dds')
          | none =>
            let root_dict_def := compress_reference_path shared_dict_def shared_dict_defs
            match addReferenceToForeignDict s cd root_dict_def with
            | none => Except.error "CHECK failed in addReferenceToForeignDict"
            | some (s', cd') => Except.ok (true, s', cd', dds)
        | row :: _ =>
          let dict_id := row.dictId
          match dds.find? (fun it => it.dictId == dict_id) with
          | some dictIt =>
            if dictIt.refcount < 1 then Except.error "CHECK_GE failed"
            else
              let dds' :=
                dds.map (fun it =>
                  if it.dictId == dict_id then { it with refcount := it.refcount + 1 }
                  else it)
              let s' :=
                { s with storeDicts :=
                    s.storeDicts.map (fun r =>
                      if r.dictId = dict_id then { r with refcount := r.refcount + 1 }
                      else r) }
              Except.ok (true, s', cd, dds')
          | none =>
            let root_dict_def := compress_reference_path shared_dict_def shared_dict_defs
            match addReferenceToForeignDict s cd root_dict_def with
            | none => Except.error "CHECK failed in addReferenceToForeignDict"
            | some (s', cd') => Except.ok (true, s', cd', dds)
    else
      match addReferenceToForeignDict s cd shared_dict_def with
      | none => Except.error "CHECK failed in addReferenceToForeignDict"
      | some (s', cd') => Except.ok (true, s', cd', dds)

/-- The persistent-path column loop of `createTable`: resolve the
dictionary of each dictionary-encoded column, insert the
`mapd_columns` row with the running column id, and collect the finished
descriptors (`cd.tableId/columnId` set) in declared order. -/
def insertColumnsLoop (td : TableDescriptor) (defs : List SharedDictionaryDef)
    (isLogicalTable : Bool) :
    List ColumnDescriptor → Int → CatalogState → List ColumnDescriptor →
    List DictDescriptor →
    Except String (CatalogState × List ColumnDescriptor × List DictDescriptor)
  | [], _, s, cds, dds => Except.ok (s, cds, dds)
  | cd :: rest, colId, s, cds, dds =>
    let step : Except String (CatalogState × ColumnDescriptor × List DictDescriptor) :=
      if cd.columnType.compression = EncodingType.kENCODING_DICT then
        match setColumnSharedDictionary s cd cds dds td defs with
        | Except.error e => Except.error e
        | Except.ok (is_foreign_col, s1, cd1, dds1) =>
          if is_foreign_col then Except.ok (s1, cd1, dds1)
          else Except.ok (setColumnDictionary s1 cd1 dds1 td isLogicalTable)
      else Except.ok (s, cd, dds)
    match step with
    | Except.error e => Except.error e
    | Except.ok (s', cd', dds') =>
      let storeRow := { cd' with tableId := td.tableId, columnId := colId }
      insertColumnsLoop td defs isLogicalTable rest (colId + 1)
        { s' with storeColumns := s'.storeColumns ++ [storeRow] }
        (cds ++ [storeRow]) dds'

/-- The temporary-table column loop of `createTable`: geometry types are
rejected, dictionary-encoded columns get fresh temporary dictionary ids;
nothing is persisted.  The state is threaded so an error keeps the
counter increments already performed. -/
def tempColumnsLoop (td : TableDescriptor) :
    List ColumnDescriptor → Int → CatalogState → List ColumnDescriptor →
    List DictDescriptor →
    (Option String) × CatalogState × List ColumnDescriptor × List DictDescriptor
  | [], _, s, cds, dds => (none, s, cds, dds)
  | cd :: rest, colId, s, cds, dds =>
    if IS_GEO cd.columnType.type then
      (some "Geometry types in temporary tables are not supported.", s, cds, dds)
    else
      let (s', cd', dds') :=
        if cd.columnType.compression = EncodingType.kENCODING_DICT then
          let dictId := s.nextTempDictId
          let dd : DictDescriptor :=
            { dictId := dictId, dictName := "", dictNBits := cd.columnType.comp_param,
              dictIsShared := false, refcount := 1, dictFolderPath := "",
              dictIsTemp := true }
          ({ s with nextTempDictId := s.nextTempDictId + 1 },
            applyDictToColumn cd dictId, dds ++ [dd])
        else (s, cd, dds)
      let cdF := { cd' with tableId := td.tableId, columnId := colId }
      tempColumnsLoop td rest (colId + 1) s' (cds ++ [cdF]) dds'

/-- The column-registration loop of `addTableToMap`: register each
column in both column registries, recording a deleted-marker column in
the per-table side index. -/
def registerColumns (td : TableDescriptor) :
    CatalogState → List ColumnDescriptor → CatalogState
  | st, [] => st
  | st, cd :: rest =>
    let st' :=
      { st with
        columnDescriptorMap :=
          aupsert st.columnDescriptorMap (cd.tableId, to_upper cd.columnName) cd,
        columnDescriptorMapById :=
          aupsert st.columnDescriptorMapById (cd.tableId, cd.columnId) cd }
    let st'' :=
      if cd.isDeletedCol then
        { st' with deletedColumnPerTable :=
            aupsert st'.deletedColumnPerTable td.tableId cd.columnId }
      else st'
    registerColumns td st'' rest

/-- The dictionary-registration loop of `addTableToMap`: dummy entries
(id zero, created for a shard of a logical table) are skipped. -/
def registerDicts : CatalogState → List DictDescriptor → CatalogState
  | st, [] => st
  | st, dd :: rest =>
    let st' :=
      if dd.dictId = 0 then st
      else
        { st with dictDescriptorMapByRef :=
            aupsert st.dictDescriptorMapByRef dd.dictId dd }
    registerDicts st' rest

/-- Model of `Catalog::addTableToMap`: register the table in both table
registries, every column in both column registries (recording the
deleted-column side index), and every non-dummy dictionary
(`dictRef.dictId ≠ 0`) in the dictionary registry. -/
def addTableToMap (s : CatalogState) (td : TableDescriptor)
    (cds : List ColumnDescriptor) (dds : List DictDescriptor) : CatalogState :=
  let s1 :=
    { s with
      tableDescriptorMap := aupsert s.tableDescriptorMap (to_upper td.tableName) td.tableId,
      tableDescriptorMapById := aupsert s.tableDescriptorMapById td.tableId td }
  registerDicts (registerColumns td s1 cds) dds

/-- Result of `createTable`: error message (none on success), resulting
catalog state, and the created descriptor (meaningful on success; the
input descriptor is carried through on error). -/
structure TableOpResult where
  err : Option String
  state : CatalogState
  table : TableDescriptor
deriving DecidableEq, Repr

/-- Model of `Catalog::createTable(td, cols, shared_dict_defs,
isLogicalTable)`: build the full column list (reserved-name check,
geometry expansion, synthetic `rowid` and deleted-marker columns), then
either persist table, columns and dictionaries inside one transaction
(rolled back on error with the in-memory registries untouched) or, for a
temporary table, allocate ids from the temporary counters; finally
register everything in the in-memory registries. -/
def createTable (s : CatalogState) (td0 : TableDescriptor)
    (cols : List ColumnDescriptor) (shared_dict_defs : List SharedDictionaryDef)
    (isLogicalTable : Bool) : TableOpResult :=
  match buildTableColumns cols td0.hasDeletedCol with
  | Except.error e => { err := some e, state := s, table := td0 }
  | Except.ok columns =>
    let td := { td0 with nColumns := (columns.length : Int) }
    if td.persistenceDisk then
      if s.storeTables.any (fun t => t.tableName == td.tableName) then
        { err := some ("Table " ++ td.tableName ++ " already exists (UNIQUE constraint)"),
          state := s, table := td }
      else
        let tdI := { td with tableId := s.nextTableId }
        let s1 :=
          { s with storeTables := s.storeTables ++ [tdI],
                   nextTableId := s.nextTableId + 1 }
        match insertColumnsLoop tdI shared_dict_defs isLogicalTable columns 1 s1 [] [] with
        | Except.error e => { err := some e, state := s, table := td }
        | Except.ok (s2, cds, dds) =>
          let s3 :=
            if tdI.isView then
              { s2 with storeViews := s2.storeViews ++ [(tdI.tableId, tdI.viewSQL)] }
            else s2
          { err := none, state := addTableToMap s3 tdI cds dds, table := tdI }
    else
      let tdI := { td with tableId := s.nextTempTableId }
      let sA := { s with nextTempTableId := s.nextTempTableId + 1 }
      match tempColumnsLoop tdI columns 1 sA [] [] with
      | (some e, sB, _, _) => { err := some e, state := sB, table := td }
      | (none, sB, cds, dds) =>
        { err := none, state := addTableToMap sB tdI cds dds, table := tdI }

/-! ## Catalog::createShardedTable -/

/-- The fixed shard-name tag (`physicalTableNameTag_`). -/
def physicalTableNameTag : String := "_shard_#"

/-- Model of `Catalog::generatePhysicalTableName`. -/
def generatePhysicalTableName (logicalTableName : String) (shardNumber : Int) :
    String :=
  logicalTableName ++ physicalTableNameTag ++ toString shardNumber

/-- Model of `Catalog::updateLogicalToPhysicalTableMap`: insert one
`mapd_logical_to_physical` row per physical table of the given logical
table (the table has no uniqueness constraint, so the insert appends). -/
def updateLogicalToPhysicalTableMap (s : CatalogState) (logical_tb_id : Int) :
    CatalogState :=
  match alookup s.logicalToPhysicalTableMapById logical_tb_id with
  | none => s
  | some physicalTables =>
    physicalTables.foldl
      (fun st p =>
        { st with storeLogicalToPhysical := st.storeLogicalToPhysical ++ [(logical_tb_id, p)] })
      s

/-- The physical-shard creation loop of `createShardedTable`: for shard
number `i` create a physical table named by the shard convention with
shard index `i - 1`, accumulating the physical table ids. -/
def shardLoop (td : TableDescriptor) (cols : List ColumnDescriptor)
    (defs : List SharedDictionaryDef) :
    List Int → CatalogState → List Int → (Option String) × CatalogState × List Int
  | [], s, acc => (none, s, acc)
  | i :: rest, s, acc =>
    let tdp :=
      { td with tableName := generatePhysicalTableName td.tableName i, shard := i - 1 }
    let r := createTable s tdp cols defs false
    match r.err with
    | some e => (some e, r.state, acc)
    | none => shardLoop td cols defs rest r.state (acc ++ [r.table.tableId])

/-- Model of `Catalog::createShardedTable`: validate the shard column,
create the logical table, create the `nShards` physical tables named by
the fixed convention, then record the logical-to-physical mapping in
memory and persist it. -/
def createShardedTable (s : CatalogState) (td : TableDescriptor)
    (cols : List ColumnDescriptor) (shared_dict_defs : List SharedDictionaryDef) :
    Option String × CatalogState :=
  if td.nShards > 0 &&
      (td.shardedColumnId ≤ 0 || (cols.length : Int) < td.shardedColumnId) then
    (some ("Invalid sharding column for table " ++ td.tableName), s)
  else
    let r := createTable s td cols shared_dict_defs true
    match r.err with
    | some e => (some e, r.state)
    | none =>
      let logical_tb_id := r.table.tableId
      let shardNumbers := (List.range td.nShards.toNat).map (fun k : Nat => (k : Int) + 1)
      match shardLoop td cols shared_dict_defs shardNumbers r.state [] with
      | (some e, s', _) => (some e, s')
      | (none, s', physicalTables) =>
        if physicalTables.isEmpty then (none, s')
        else
          match alookup s'.logicalToPhysicalTableMapById logical_tb_id with
          | some _ => (some "CHECK failed: logical table already mapped", s')
          | none =>
            let s2 :=
              { s' with logicalToPhysicalTableMapById :=
                  aupsert s'.logicalToPhysicalTableMapById logical_tb_id physicalTables }
            (none, updateLogicalToPhysicalTableMap s2 logical_tb_id)

/-! ## C10 -/

theorem expandColumnsLoop_error_of_rowid :
    ∀ (cols acc : List ColumnDescriptor), (∃ cd ∈ cols, cd.columnName = "rowid") →
      ∃ msg, expandColumnsLoop cols acc = Except.error msg := by
  intro cols
  induction cols with
  | nil => intro acc h; simp at h
  | cons hd tl ih =>
    intro acc h
    by_cases hh : hd.columnName = "rowid"
    · exact ⟨"Cannot create column with name rowid. rowid is a system defined column.",
        by simp [expandColumnsLoop, expandColumn, hh]⟩
    · obtain ⟨cd, hm, hn⟩ := h
      rcases List.mem_cons.mp hm with rfl | hm'
      · exact absurd hn hh
      · have hok : ∃ l, expandColumn hd = Except.ok l := by
          unfold expandColumn
          rw [if_neg hh]
          cases htype : hd.columnType.type <;> simp [IS_GEO, htype]
        obtain ⟨l, hl⟩ := hok
        obtain ⟨msg, hmsg⟩ := ih (acc ++ l) ⟨cd, hm', hn⟩
        exact ⟨msg, by simp [expandColumnsLoop, hl, hmsg]⟩

theorem buildTableColumns_error_of_rowid (cols : List ColumnDescriptor) (b : Bool)
    (h : ∃ cd ∈ cols, cd.columnName = "rowid") :
    ∃ msg, buildTableColumns cols b = Except.error msg := by
  obtain ⟨msg, hm⟩ := expandColumnsLoop_error_of_rowid cols [] h
  exact ⟨msg, by simp [buildTableColumns, hm]⟩

/-- C10: if any declared column passed to `Catalog::createTable` is
named `rowid`, the call throws before any persistent or in-memory state
is modified — the result is an error and the catalog state is returned
unchanged. -/
theorem createTable_rejects_rowid (s : CatalogState) (td : TableDescriptor)
    (cols : List ColumnDescriptor) (defs : List SharedDictionaryDef)
    (isLogical : Bool)
    (h : ∃ cd ∈ cols, cd.columnName = "rowid") :
    ((createTable s td cols defs isLogical).err).isSome = true ∧
    (createTable s td cols defs isLogical).state = s := by
  obtain ⟨msg, hm⟩ := buildTableColumns_error_of_rowid cols td.hasDeletedCol h
  simp [createTable, hm]

/-- Empty sample catalog state. -/
def sampleCat : CatalogState :=
  { storeTables := [], storeColumns := [], storeDicts := [],
    storeLogicalToPhysical := [], storeViews := [],
    nextTableId := 1, nextDictId := 1,
    tableDescriptorMap := [], tableDescriptorMapById := [],
    columnDescriptorMap := [], columnDescriptorMapById := [],
    dictDescriptorMapByRef := [], deletedColumnPerTable := [],
    logicalToPhysicalTableMapById := [],
    nextTempTableId := 1073741824, nextTempDictId := 1073741824,
    currentDbId := 1, basePath := "" }

/-- Sample table descriptor. -/
def sampleTd : TableDescriptor := { tableName := "t" }

/-- Sample declared column illegally named `rowid`. -/
def sampleRowidCol : ColumnDescriptor :=
  { columnName := "rowid", columnType := { type := SQLTypes.kINT } }

/-- Witness for C10: declaring a column named `rowid` makes
`createTable` fail with the state unchanged. -/
theorem createTable_rejects_rowid_witness :
    (∃ cd ∈ [sampleRowidCol], cd.columnName = "rowid") ∧
    (((createTable sampleCat sampleTd [sampleRowidCol] [] true).err).isSome = true ∧
     (createTable sampleCat sampleTd [sampleRowidCol] [] true).state = sampleCat) :=
  ⟨⟨sampleRowidCol, by simp, rfl⟩,
   createTable_rejects_rowid sampleCat sampleTd [sampleRowidCol] [] true
     ⟨sampleRowidCol, by simp, rfl⟩⟩

/-! ## C4 helper lemmas -/

/-- Identity of a column up to its type: name, system/virtual/deleted
flags.  The dictionary-resolution helpers may rewrite `columnType` but
never these fields. -/
def sameColumnHeader (a b : ColumnDescriptor) : Prop :=
  a.columnName = b.columnName ∧ a.isSystemCol = b.isSystemCol ∧
  a.isVirtualCol = b.isVirtualCol ∧ a.isDeletedCol = b.isDeletedCol

instance (a b : ColumnDescriptor) : Decidable (sameColumnHeader a b) := by
  unfold sameColumnHeader
  infer_instance

theorem sameColumnHeader_refl (a : ColumnDescriptor) : sameColumnHeader a a :=
  ⟨rfl, rfl, rfl, rfl⟩

theorem sameColumnHeader_trans {a b c : ColumnDescriptor}
    (h1 : sameColumnHeader a b) (h2 : sameColumnHeader b c) :
    sameColumnHeader a c :=
  ⟨h1.1.trans h2.1, h1.2.1.trans h2.2.1, h1.2.2.1.trans h2.2.2.1,
   h1.2.2.2.trans h2.2.2.2⟩

theorem applyDictToColumn_header (cd : ColumnDescriptor) (d : Int) :
    sameColumnHeader (applyDictToColumn cd d) cd :=
  ⟨rfl, rfl, rfl, rfl⟩

theorem addReferenceToForeignDict_header (s : CatalogState)
    (cd : ColumnDescriptor) (d : SharedDictionaryDef) (s' : CatalogState)
    (cd' : ColumnDescriptor)
    (h : addReferenceToForeignDict s cd d = some (s', cd')) :
    sameColumnHeader cd' cd := by
  unfold addReferenceToForeignDict at h
  split at h
  · exact absurd h (by simp)
  · try dsimp only at h
    split at h
    · exact absurd h (by simp)
    · split at h
      · exact absurd h (by simp)
      · injection h with h1
        have h2 := congrArg Prod.snd h1
        simp at h2
        rw [← h2]
        exact ⟨rfl, rfl, rfl, rfl⟩

theorem setColumnDictionary_header (s : CatalogState) (cd : ColumnDescriptor)
    (dds : List DictDescriptor) (td : TableDescriptor) (b : Bool) :
    sameColumnHeader (setColumnDictionary s cd dds td b).2.1 cd := by
  unfold setColumnDictionary
  split
  · exact ⟨rfl, rfl, rfl, rfl⟩
  · exact ⟨rfl, rfl, rfl, rfl⟩

theorem setColumnSharedDictionary_header (s : CatalogState)
    (cd : ColumnDescriptor) (cds : List ColumnDescriptor)
    (dds : List DictDescriptor) (td : TableDescriptor)
    (defs : List SharedDictionaryDef) (b : Bool) (s' : CatalogState)
    (cd' : ColumnDescriptor) (dds' : List DictDescriptor)
    (h : setColumnSharedDictionary s cd cds dds td defs =
      Except.ok (b, s', cd', dds')) :
    sameColumnHeader cd' cd := by
  unfold setColumnSharedDictionary at h
  split at h
  · injection h with h1
    have h2 := congrArg (fun q => q.2.2.1) h1
    simp at h2
    rw [← h2]
    exact sameColumnHeader_refl cd
  · try dsimp only at h
    split at h
    · split at h
      · exact absurd h (by simp)
      · try dsimp only at h
        split at h
        · -- dictRows = []
          split at h
          · -- dds.find? = some
            split at h
            · exact absurd h (by simp)
            · injection h with h1
              have h2 := congrArg (fun q => q.2.2.1) h1
              simp at h2
              rw [← h2]
              exact sameColumnHeader_refl _
          · -- dds.find? = none → addReferenceToForeignDict
            split at h
            · exact absurd h (by simp)
            · rename_i heq
              injection h with h1
              have h2 := congrArg (fun q => q.2.2.1) h1
              simp at h2
              rw [← h2]
              exact sameColumnHeader_trans
                (addReferenceToForeignDict_header _ _ _ _ _ heq)
                (sameColumnHeader_refl _)
        · -- dictRows = row :: _
          try dsimp only at h
          split at h
          · split at h
            · exact absurd h (by simp)
            · injection h with h1
              have h2 := congrArg (fun q => q.2.2.1) h1
              simp at h2
              rw [← h2]
              exact sameColumnHeader_refl _
          · split at h
            · exact absurd h (by simp)
            · rename_i heq
              injection h with h1
              have h2 := congrArg (fun q => q.2.2.1) h1
              simp at h2
              rw [← h2]
              exact sameColumnHeader_trans
                (addReferenceToForeignDict_header _ _ _ _ _ heq)
                (sameColumnHeader_refl _)
    · split at h
      · exact absurd h (by simp)
      · rename_i heq
        injection h with h1
        have h2 := congrArg (fun q => q.2.2.1) h1
        simp at h2
        rw [← h2]
        exact addReferenceToForeignDict_header _ _ _ _ _ heq

/-- The catalog-state fields that dictionary resolution never touches
(it only updates `dictDescriptorMapByRef`, `storeDicts`, `storeColumns`
and the dictionary counters). -/
def preservesNonDictState (a b : CatalogState) : Prop :=
  b.columnDescriptorMapById = a.columnDescriptorMapById ∧
  b.columnDescriptorMap = a.columnDescriptorMap ∧
  b.tableDescriptorMapById = a.tableDescriptorMapById ∧
  b.tableDescriptorMap = a.tableDescriptorMap ∧
  b.deletedColumnPerTable = a.deletedColumnPerTable ∧
  b.logicalToPhysicalTableMapById = a.logicalToPhysicalTableMapById ∧
  b.storeTables = a.storeTables ∧
  b.storeLogicalToPhysical = a.storeLogicalToPhysical ∧
  b.nextTableId = a.nextTableId ∧
  b.nextTempTableId = a.nextTempTableId

theorem preservesNonDictState_refl (a : CatalogState) : preservesNonDictState a a :=
  ⟨rfl, rfl, rfl, rfl, rfl, rfl, rfl, rfl, rfl, rfl⟩

theorem preservesNonDictState_trans {a b c : CatalogState}
    (h1 : preservesNonDictState a b) (h2 : preservesNonDictState b c) :
    preservesNonDictState a c := by
  obtain ⟨p1, p2, p3, p4, p5, p6, p7, p8, p9, p10⟩ := h1
  obtain ⟨q1, q2, q3, q4, q5, q6, q7, q8, q9, q10⟩ := h2
  exact ⟨q1.trans p1, q2.trans p2, q3.trans p3, q4.trans p4, q5.trans p5,
    q6.trans p6, q7.trans p7, q8.trans p8, q9.trans p9, q10.trans p10⟩

theorem addReferenceToForeignDict_preserves (s : CatalogState)
    (cd : ColumnDescriptor) (d : SharedDictionaryDef) (s' : CatalogState)
    (cd' : ColumnDescriptor)
    (h : addReferenceToForeignDict s cd d = some (s', cd')) :
    preservesNonDictState s s' := by
  unfold addReferenceToForeignDict at h
  split at h
  · exact absurd h (by simp)
  · try dsimp only at h
    split at h
    · exact absurd h (by simp)
    · split at h
      · exact absurd h (by simp)
      · injection h with h1
        have h2 := congrArg Prod.fst h1
        simp at h2
        rw [← h2]
        exact ⟨rfl, rfl, rfl, rfl, rfl, rfl, rfl, rfl, rfl, rfl⟩

theorem setColumnSharedDictionary_preserves (s : CatalogState)
    (cd : ColumnDescriptor) (cds : List ColumnDescriptor)
    (dds : List DictDescriptor) (td : TableDescriptor)
    (defs : List SharedDictionaryDef) (b : Bool) (s' : CatalogState)
    (cd' : ColumnDescriptor) (dds' : List DictDescriptor)
    (h : setColumnSharedDictionary s cd cds dds td defs =
      Except.ok (b, s', cd', dds')) :
    preservesNonDictState s s' := by
  unfold setColumnSharedDictionary at h
  split at h
  · injection h with h1
    have h2 := congrArg (fun q => q.2.1) h1
    simp at h2
    rw [← h2]
    exact preservesNonDictState_refl s
  · try dsimp only at h
    split at h
    · split at h
      · exact absurd h (by simp)
      · try dsimp only at h
        split at h
        · split at h
          · split at h
            · exact absurd h (by simp)
            · injection h with h1
              have h2 := congrArg (fun q => q.2.1) h1
              simp at h2
              rw [← h2]
              exact preservesNonDictState_refl s
          · split at h
            · exact absurd h (by simp)
            · rename_i heq
              injection h with h1
              have h2 := congrArg (fun q => q.2.1) h1
              simp at h2
              rw [← h2]
              exact addReferenceToForeignDict_preserves _ _ _ _ _ heq
        · try dsimp only at h
          split at h
          · split at h
            · exact absurd h (by simp)
            · injection h with h1
              have h2 := congrArg (fun q => q.2.1) h1
              simp at h2
              rw [← h2]
              exact ⟨rfl, rfl, rfl, rfl, rfl, rfl, rfl, rfl, rfl, rfl⟩
          · split at h
            · exact absurd h (by simp)
            · rename_i heq
              injection h with h1
              have h2 := congrArg (fun q => q.2.1) h1
              simp at h2
              rw [← h2]
              exact addReferenceToForeignDict_preserves _ _ _ _ _ heq
    · split at h
      · exact absurd h (by simp)
      · rename_i heq
        injection h with h1
        have h2 := congrArg (fun q => q.2.1) h1
        simp at h2
        rw [← h2]
        exact addReferenceToForeignDict_preserves _ _ _ _ _ heq

theorem setColumnDictionary_preserves (s : CatalogState) (cd : ColumnDescriptor)
    (dds : List DictDescriptor) (td : TableDescriptor) (b : Bool) :
    preservesNonDictState s (setColumnDictionary s cd dds td b).1 := by
  unfold setColumnDictionary
  split
  · exact ⟨rfl, rfl, rfl, rfl, rfl, rfl, rfl, rfl, rfl, rfl⟩
  · exact preservesNonDictState_refl s

theorem insertColumnsLoop_preserves (td : TableDescriptor)
    (defs : List SharedDictionaryDef) (isL : Bool) :
    ∀ (cols : List ColumnDescriptor) (colId : Int) (s : CatalogState)
      (cds : List ColumnDescriptor) (dds : List DictDescriptor)
      (s' : CatalogState) (cds' : List ColumnDescriptor)
      (dds' : List DictDescriptor),
      insertColumnsLoop td defs isL cols colId s cds dds =
        Except.ok (s', cds', dds') →
      preservesNonDictState s s' := by
  intro cols
  induction cols with
  | nil =>
    intro colId s cds dds s' cds' dds' h
    unfold insertColumnsLoop at h
    injection h with h1
    have h2 := congrArg Prod.fst h1
    simp at h2
    rw [← h2]
    exact preservesNonDictState_refl s
  | cons hd tl ih =>
    intro colId s cds dds s' cds' dds' h
    unfold insertColumnsLoop at h
    try dsimp only at h
    split at h
    · exact absurd h (by simp)
    · rename_i sx cdx ddsx heq
      have hstep : preservesNonDictState s sx := by
        by_cases hc : hd.columnType.compression = EncodingType.kENCODING_DICT
        · rw [if_pos hc] at heq
          split at heq
          · exact absurd heq (by simp)
          · rename_i b' s1 cd1 dds1 heq2
            split at heq
            · injection heq with h1
              have h2 := congrArg Prod.fst h1
              simp at h2
              rw [← h2]
              exact setColumnSharedDictionary_preserves _ _ _ _ _ _ _ _ _ _ heq2
            · injection heq with h1
              have h2 := congrArg Prod.fst h1
              simp at h2
              rw [← h2]
              exact preservesNonDictState_trans
                (setColumnSharedDictionary_preserves _ _ _ _ _ _ _ _ _ _ heq2)
                (setColumnDictionary_preserves _ _ _ _ _)
        · rw [if_neg hc] at heq
          injection heq with h1
          have h2 := congrArg Prod.fst h1
          simp at h2
          rw [← h2]
          exact preservesNonDictState_refl s
      have hrest := ih _ _ _ _ _ _ _ h
      refine preservesNonDictState_trans hstep ?_
      exact preservesNonDictState_trans
        (by exact ⟨rfl, rfl, rfl, rfl, rfl, rfl, rfl, rfl, rfl, rfl⟩) hrest

theorem insertColumnsLoop_columns (td : TableDescriptor)
    (defs : List SharedDictionaryDef) (isL : Bool) :
    ∀ (cols : List ColumnDescriptor) (colId : Int) (s : CatalogState)
      (cds : List ColumnDescriptor) (dds : List DictDescriptor)
      (s' : CatalogState) (cds' : List ColumnDescriptor)
      (dds' : List DictDescriptor),
      insertColumnsLoop td defs isL cols colId s cds dds =
        Except.ok (s', cds', dds') →
      ∃ newCds : List ColumnDescriptor,
        cds' = cds ++ newCds ∧ newCds.length = cols.length ∧
        ∀ j (hj : j < newCds.length) (hj2 : j < cols.length),
          (newCds.get ⟨j, hj⟩).columnId = colId + (j : Int) ∧
          (newCds.get ⟨j, hj⟩).tableId = td.tableId ∧
          sameColumnHeader (newCds.get ⟨j, hj⟩) (cols.get ⟨j, hj2⟩) := by
  intro cols
  induction cols with
  | nil =>
    intro colId s cds dds s' cds' dds' h
    unfold insertColumnsLoop at h
    injection h with h1
    have h2 := congrArg (fun q => q.2.1) h1
    simp at h2
    exact ⟨[], by simp [← h2], rfl, by intro j hj hj2; exact absurd hj (by simp)⟩
  | cons hd tl ih =>
    intro colId s cds dds s' cds' dds' h
    unfold insertColumnsLoop at h
    try dsimp only at h
    split at h
    · exact absurd h (by simp)
    · rename_i sx cdx ddsx heq
      have hhd : sameColumnHeader cdx hd := by
        by_cases hc : hd.columnType.compression = EncodingType.kENCODING_DICT
        · rw [if_pos hc] at heq
          split at heq
          · exact absurd heq (by simp)
          · rename_i b' s1 cd1 dds1 heq2
            have hh1 := setColumnSharedDictionary_header _ _ _ _ _ _ _ _ _ _ heq2
            split at heq
            · injection heq with h1
              have h2 := congrArg (fun q => q.2.1) h1
              simp at h2
              rw [← h2]
              exact hh1
            · injection heq with h1
              have h2 := congrArg (fun q => q.2.1) h1
              simp at h2
              rw [← h2]
              exact sameColumnHeader_trans (setColumnDictionary_header _ _ _ _ _) hh1
        · rw [if_neg hc] at heq
          injection heq with h1
          have h2 := congrArg (fun q => q.2.1) h1
          simp at h2
          rw [← h2]
          exact sameColumnHeader_refl hd
      obtain ⟨newRest, hcds, hlen, hprop⟩ := ih _ _ _ _ _ _ _ h
      refine ⟨{ cdx with tableId := td.tableId, columnId := colId } :: newRest,
        ?_, by simp [hlen], ?_⟩
      · rw [hcds]
        simp
      · intro j hj hj2
        cases j with
        | zero =>
          refine ⟨by simp, by simp, ?_⟩
          simp only [List.get]
          exact sameColumnHeader_trans ⟨rfl, rfl, rfl, rfl⟩ hhd
        | succ j' =>
          have hj' : j' < newRest.length := by simpa using hj
          have hj2' : j' < tl.length := by simpa using hj2
          obtain ⟨hc1, hc2, hc3⟩ := hprop j' hj' hj2'
          refine ⟨?_, ?_, ?_⟩
          · simp only [List.get]
            rw [hc1]
            push_cast
            ring
          · simpa using hc2
          · simp only [List.get]
            exact hc3

theorem tempColumnsLoop_columns (td : TableDescriptor) :
    ∀ (cols : List ColumnDescriptor) (colId : Int) (s : CatalogState)
      (cds : List ColumnDescriptor) (dds : List DictDescriptor)
      (s' : CatalogState) (cds' : List ColumnDescriptor)
      (dds' : List DictDescriptor),
      tempColumnsLoop td cols colId s cds dds = (none, s', cds', dds') →
      ∃ newCds : List ColumnDescriptor,
        cds' = cds ++ newCds ∧ newCds.length = cols.length ∧
        ∀ j (hj : j < newCds.length) (hj2 : j < cols.length),
          (newCds.get ⟨j, hj⟩).columnId = colId + (j : Int) ∧
          (newCds.get ⟨j, hj⟩).tableId = td.tableId ∧
          sameColumnHeader (newCds.get ⟨j, hj⟩) (cols.get ⟨j, hj2⟩) := by
  intro cols
  induction cols with
  | nil =>
    intro colId s cds dds s' cds' dds' h
    unfold tempColumnsLoop at h
    injection h with h1 h2
    have h3 := congrArg (fun q => q.2.1) h2
    simp at h3
    exact ⟨[], by simp [← h3], rfl, by intro j hj hj2; exact absurd hj (by simp)⟩
  | cons hd tl ih =>
    intro colId s cds dds s' cds' dds' h
    unfold tempColumnsLoop at h
    by_cases hg : IS_GEO hd.columnType.type
    · rw [if_pos hg] at h
      exact absurd (congrArg Prod.fst h) (by simp)
    · rw [if_neg hg] at h
      try dsimp only at h
      by_cases hc : hd.columnType.compression = EncodingType.kENCODING_DICT
      · rw [if_pos hc] at h
        try dsimp only at h
        obtain ⟨newRest, hcds, hlen, hprop⟩ := ih _ _ _ _ _ _ _ h
        refine ⟨{ applyDictToColumn hd s.nextTempDictId with
            tableId := td.tableId, columnId := colId } :: newRest,
          ?_, by simp [hlen], ?_⟩
        · rw [hcds]
          simp
        · intro j hj hj2
          cases j with
          | zero =>
            refine ⟨by simp, by simp, ?_⟩
            simp only [List.get]
            exact sameColumnHeader_trans ⟨rfl, rfl, rfl, rfl⟩
              (applyDictToColumn_header hd s.nextTempDictId)
          | succ j' =>
            have hj' : j' < newRest.length := by simpa using hj
            have hj2' : j' < tl.length := by simpa using hj2
            obtain ⟨hc1, hc2, hc3⟩ := hprop j' hj' hj2'
            refine ⟨?_, ?_, ?_⟩
            · simp only [List.get]
              rw [hc1]
              push_cast
              ring
            · simpa using hc2
            · simp only [List.get]
              exact hc3
      · rw [if_neg hc] at h
        try dsimp only at h
        obtain ⟨newRest, hcds, hlen, hprop⟩ := ih _ _ _ _ _ _ _ h
        refine ⟨{ hd with tableId := td.tableId, columnId := colId } :: newRest,
          ?_, by simp [hlen], ?_⟩
        · rw [hcds]
          simp
        · intro j hj hj2
          cases j with
          | zero =>
            exact ⟨by simp, by simp, by
              simp only [List.get]
              exact ⟨rfl, rfl, rfl, rfl⟩⟩
          | succ j' =>
            have hj' : j' < newRest.length := by simpa using hj
            have hj2' : j' < tl.length := by simpa using hj2
            obtain ⟨hc1, hc2, hc3⟩ := hprop j' hj' hj2'
            refine ⟨?_, ?_, ?_⟩
            · simp only [List.get]
              rw [hc1]
              push_cast
              ring
            · simpa using hc2
            · simp only [List.get]
              exact hc3

theorem alookup_none_of_no_key {κ ν : Type} [DecidableEq κ]
    (l : List (κ × ν)) (k : κ) (h : ∀ p ∈ l, p.1 ≠ k) : alookup l k = none := by
  induction l with
  | nil => rfl
  | cons hd tl ih =>
    have hhd := h hd (by simp)
    simp only [alookup, if_neg hhd]
    exact ih (fun p hp => h p (by simp [hp]))

theorem registerColumns_untouched (td : TableDescriptor) :
    ∀ (cds : List ColumnDescriptor) (st : CatalogState),
      (registerColumns td st cds).storeTables = st.storeTables ∧
      (registerColumns td st cds).storeColumns = st.storeColumns ∧
      (registerColumns td st cds).storeDicts = st.storeDicts ∧
      (registerColumns td st cds).storeLogicalToPhysical =
        st.storeLogicalToPhysical ∧
      (registerColumns td st cds).nextTableId = st.nextTableId ∧
      (registerColumns td st cds).tableDescriptorMap = st.tableDescriptorMap ∧
      (registerColumns td st cds).tableDescriptorMapById =
        st.tableDescriptorMapById ∧
      (registerColumns td st cds).logicalToPhysicalTableMapById =
        st.logicalToPhysicalTableMapById ∧
      (registerColumns td st cds).dictDescriptorMapByRef =
        st.dictDescriptorMapByRef := by
  intro cds
  induction cds with
  | nil =>
    intro st
    exact ⟨rfl, rfl, rfl, rfl, rfl, rfl, rfl, rfl, rfl⟩
  | cons hd tl ih =>
    intro st
    unfold registerColumns
    try dsimp only
    by_cases hdel : hd.isDeletedCol
    · rw [if_pos hdel]
      exact ih _
    · rw [if_neg hdel]
      exact ih _

theorem registerDicts_untouched :
    ∀ (dds : List DictDescriptor) (st : CatalogState),
      (registerDicts st dds).storeTables = st.storeTables ∧
      (registerDicts st dds).storeColumns = st.storeColumns ∧
      (registerDicts st dds).storeLogicalToPhysical = st.storeLogicalToPhysical ∧
      (registerDicts st dds).nextTableId = st.nextTableId ∧
      (registerDicts st dds).tableDescriptorMap = st.tableDescriptorMap ∧
      (registerDicts st dds).tableDescriptorMapById = st.tableDescriptorMapById ∧
      (registerDicts st dds).columnDescriptorMap = st.columnDescriptorMap ∧
      (registerDicts st dds).columnDescriptorMapById =
        st.columnDescriptorMapById ∧
      (registerDicts st dds).deletedColumnPerTable = st.deletedColumnPerTable ∧
      (registerDicts st dds).logicalToPhysicalTableMapById =
        st.logicalToPhysicalTableMapById := by
  intro dds
  induction dds with
  | nil =>
    intro st
    exact ⟨rfl, rfl, rfl, rfl, rfl, rfl, rfl, rfl, rfl, rfl⟩
  | cons hd tl ih =>
    intro st
    unfold registerDicts
    try dsimp only
    by_cases hz : hd.dictId = 0
    · rw [if_pos hz]
      exact ih _
    · rw [if_neg hz]
      exact ih _

theorem registerColumns_columnsById_notin (td : TableDescriptor) :
    ∀ (cds : List ColumnDescriptor) (st : CatalogState) (k : Int × Int),
      (∀ cd ∈ cds, (cd.tableId, cd.columnId) ≠ k) →
      alookup (registerColumns td st cds).columnDescriptorMapById k =
        alookup st.columnDescriptorMapById k := by
  intro cds
  induction cds with
  | nil =>
    intro st k h
    rfl
  | cons hd tl ih =>
    intro st k h
    have hk := h hd (by simp)
    unfold registerColumns
    try dsimp only
    by_cases hdel : hd.isDeletedCol
    · rw [if_pos hdel]
      rw [ih _ _ (fun cd hcd => h cd (by simp [hcd]))]
      exact alookup_upsert_ne _ _ _ _ hk
    · rw [if_neg hdel]
      rw [ih _ _ (fun cd hcd => h cd (by simp [hcd]))]
      exact alookup_upsert_ne _ _ _ _ hk

theorem registerColumns_columnsById_mem (td : TableDescriptor) :
    ∀ (cds : List ColumnDescriptor) (st : CatalogState) (cd : ColumnDescriptor),
      cd ∈ cds →
      (∀ cd2 ∈ cds, (cd2.tableId, cd2.columnId) = (cd.tableId, cd.columnId) →
        cd2 = cd) →
      alookup (registerColumns td st cds).columnDescriptorMapById
        (cd.tableId, cd.columnId) = some cd := by
  intro cds
  induction cds with
  | nil =>
    intro st cd h
    simp at h
  | cons hd tl ih =>
    intro st cd hmem huniq
    by_cases hmem' : cd ∈ tl
    · unfold registerColumns
      try dsimp only
      by_cases hdel : hd.isDeletedCol
      · rw [if_pos hdel]
        exact ih _ cd hmem' (fun cd2 h2 he => huniq cd2 (by simp [h2]) he)
      · rw [if_neg hdel]
        exact ih _ cd hmem' (fun cd2 h2 he => huniq cd2 (by simp [h2]) he)
    · have hcd : cd = hd := by
        rcases List.mem_cons.mp hmem with h | h
        · exact h
        · exact absurd h hmem'
      subst hcd
      unfold registerColumns
      try dsimp only
      have hnot : ∀ cd2 ∈ tl, (cd2.tableId, cd2.columnId) ≠ (cd.tableId, cd.columnId) := by
        intro cd2 h2 he
        exact hmem' (huniq cd2 (by simp [h2]) he ▸ h2)
      by_cases hdel : cd.isDeletedCol
      · rw [if_pos hdel]
        rw [registerColumns_columnsById_notin td tl _ _ hnot]
        exact alookup_upsert_self _ _ _
      · rw [if_neg hdel]
        rw [registerColumns_columnsById_notin td tl _ _ hnot]
        exact alookup_upsert_self _ _ _

theorem tempColumnsLoop_columnsById (td : TableDescriptor) :
    ∀ (cols : List ColumnDescriptor) (colId : Int) (s : CatalogState)
      (cds : List ColumnDescriptor) (dds : List DictDescriptor),
      ((tempColumnsLoop td cols colId s cds dds).2.1).columnDescriptorMapById =
        s.columnDescriptorMapById := by
  intro cols
  induction cols with
  | nil =>
    intro colId s cds dds
    rfl
  | cons hd tl ih =>
    intro colId s cds dds
    unfold tempColumnsLoop
    by_cases hg : IS_GEO hd.columnType.type
    · rw [if_pos hg]
    · rw [if_neg hg]
      try dsimp only
      by_cases hc : hd.columnType.compression = EncodingType.kENCODING_DICT
      · rw [if_pos hc]
        try dsimp only
        exact ih _ _ _ _
      · rw [if_neg hc]
        try dsimp only
        exact ih _ _ _ _

theorem addTableToMap_column_lookup
    (tdI : TableDescriptor) (columns : List ColumnDescriptor)
    (sBase : CatalogState) (cds : List ColumnDescriptor)
    (dds : List DictDescriptor)
    (hlen : cds.length = columns.length)
    (hprop : ∀ j (hj : j < cds.length),
      (cds.get ⟨j, hj⟩).columnId = 1 + (j : Int) ∧
      (cds.get ⟨j, hj⟩).tableId = tdI.tableId)
    (hfresh : ∀ p ∈ sBase.columnDescriptorMapById, p.1.1 ≠ tdI.tableId) :
    (∀ j (hj : j < cds.length),
      alookup (addTableToMap sBase tdI cds dds).columnDescriptorMapById
        (tdI.tableId, (j : Int) + 1) = some (cds.get ⟨j, hj⟩)) ∧
    (∀ i : Int,
      (alookup (addTableToMap sBase tdI cds dds).columnDescriptorMapById
        (tdI.tableId, i)).isSome = true ↔
      (1 ≤ i ∧ i ≤ (columns.length : Int))) := by
  have hColsById : (addTableToMap sBase tdI cds dds).columnDescriptorMapById =
      (registerColumns tdI
        { sBase with
          tableDescriptorMap :=
            aupsert sBase.tableDescriptorMap (to_upper tdI.tableName) tdI.tableId,
          tableDescriptorMapById :=
            aupsert sBase.tableDescriptorMapById tdI.tableId tdI } cds).columnDescriptorMapById := by
    unfold addTableToMap
    exact (registerDicts_untouched dds _).2.2.2.2.2.2.2.1
  have hmemGet : ∀ cd2 ∈ cds,
      ∃ j2, ∃ hj2 : j2 < cds.length, cds.get ⟨j2, hj2⟩ = cd2 := by
    intro cd2 h2
    obtain ⟨n, hn⟩ := List.mem_iff_get.mp h2
    exact ⟨n.1, n.2, hn⟩
  have hlookup : ∀ j (hj : j < cds.length),
      alookup (addTableToMap sBase tdI cds dds).columnDescriptorMapById
        (tdI.tableId, (j : Int) + 1) = some (cds.get ⟨j, hj⟩) := by
    intro j hj
    rw [hColsById]
    have hkey : ((cds.get ⟨j, hj⟩).tableId, (cds.get ⟨j, hj⟩).columnId) =
        (tdI.tableId, (j : Int) + 1) := by
      obtain ⟨h1, h2⟩ := hprop j hj
      rw [h1, h2]
      simp [Int.add_comm]
    rw [← hkey]
    apply registerColumns_columnsById_mem
    · exact List.get_mem cds _ _
    · intro cd2 h2 he
      obtain ⟨j2, hj2, hget2⟩ := hmemGet cd2 h2
      obtain ⟨g1, _⟩ := hprop j2 hj2
      obtain ⟨p1, _⟩ := hprop j hj
      have hid : cd2.columnId = (cds.get ⟨j, hj⟩).columnId := congrArg Prod.snd he
      rw [← hget2, g1, p1] at hid
      have hcastj : (j2 : Int) = (j : Int) := by omega
      have hj2j : j2 = j := by exact_mod_cast hcastj
      subst hj2j
      exact hget2.symm
  refine ⟨hlookup, ?_⟩
  intro i
  constructor
  · intro hsome
    by_contra hrange
    have hne : ∀ cd2 ∈ cds, (cd2.tableId, cd2.columnId) ≠ (tdI.tableId, i) := by
      intro cd2 h2 he
      obtain ⟨j2, hj2, hget2⟩ := hmemGet cd2 h2
      obtain ⟨g1, _⟩ := hprop j2 hj2
      have hid : cd2.columnId = i := congrArg Prod.snd he
      rw [← hget2, g1] at hid
      have hj2n : (j2 : Int) < (columns.length : Int) := by
        have := hlen ▸ hj2
        exact_mod_cast this
      apply hrange
      constructor
      · omega
      · omega
    rw [hColsById, registerColumns_columnsById_notin _ _ _ _ hne] at hsome
    have : alookup ({ sBase with
        tableDescriptorMap :=
          aupsert sBase.tableDescriptorMap (to_upper tdI.tableName) tdI.tableId,
        tableDescriptorMapById :=
          aupsert sBase.tableDescriptorMapById tdI.tableId tdI } : CatalogState).columnDescriptorMapById
        (tdI.tableId, i) = none := by
      apply alookup_none_of_no_key
      intro p hp heq
      exact hfresh p hp (by rw [heq])
    rw [this] at hsome
    simp at hsome
  · intro ⟨h1, h2⟩
    have hj : (i - 1).toNat < cds.length := by
      rw [hlen]
      omega
    have hcast : ((( i - 1).toNat : Int)) + 1 = i := by
      omega
    have := hlookup (i - 1).toNat hj
    rw [hcast] at this
    rw [this]
    simp

theorem createTable_success_shape (s : CatalogState) (td0 : TableDescriptor)
    (cols : List ColumnDescriptor) (defs : List SharedDictionaryDef)
    (isL : Bool) (r : TableOpResult)
    (hr : createTable s td0 cols defs isL = r) (hok : r.err = none) :
    ∃ columns cds dds sBase tdI,
      buildTableColumns cols td0.hasDeletedCol = Except.ok columns ∧
      r = { err := none, state := addTableToMap sBase tdI cds dds, table := tdI } ∧
      tdI.nColumns = (columns.length : Int) ∧
      sBase.columnDescriptorMapById = s.columnDescriptorMapById ∧
      cds.length = columns.length ∧
      (∀ j (hj : j < cds.length) (hj2 : j < columns.length),
        (cds.get ⟨j, hj⟩).columnId = 1 + (j : Int) ∧
        (cds.get ⟨j, hj⟩).tableId = tdI.tableId ∧
        sameColumnHeader (cds.get ⟨j, hj⟩) (columns.get ⟨j, hj2⟩)) := by
  unfold createTable at hr
  split at hr
  · rw [← hr] at hok
    simp at hok
  · rename_i columns hbuild
    try dsimp only at hr
    split at hr
    · -- persistent table
      split at hr
      · rw [← hr] at hok
        simp at hok
      · split at hr
        · rw [← hr] at hok
          simp at hok
        · rename_i s2 cds dds hloop
          obtain ⟨newCds, hcds, hlen, hprop⟩ :=
            insertColumnsLoop_columns _ _ _ _ _ _ _ _ _ _ _ hloop
          simp only [List.nil_append] at hcds
          subst hcds
          refine ⟨columns, cds, dds, _, _, hbuild, hr.symm, rfl, ?_, hlen, ?_⟩
          · have hpres := insertColumnsLoop_preserves _ _ _ _ _ _ _ _ _ _ _ hloop
            have h1 : s2.columnDescriptorMapById = s.columnDescriptorMapById :=
              hpres.1
            split
            · exact h1
            · exact h1
          · intro j hj hj2
            exact hprop j hj hj2
    · -- temporary table
      split at hr
      · rw [← hr] at hok
        simp at hok
      · rename_i sB cds dds htmp
        obtain ⟨newCds, hcds, hlen, hprop⟩ :=
          tempColumnsLoop_columns _ _ _ _ _ _ _ _ _ htmp
        simp only [List.nil_append] at hcds
        subst hcds
        refine ⟨columns, cds, dds, sB, _, hbuild, hr.symm, rfl, ?_, hlen, ?_⟩
        · have hById := tempColumnsLoop_columnsById
            { td0 with nColumns := (columns.length : Int), tableId := s.nextTempTableId }
            columns 1 { s with nextTempTableId := s.nextTempTableId + 1 } [] []
          rw [htmp] at hById
          exact hById
        · intro j hj hj2
          exact hprop j hj hj2

theorem buildTableColumns_tail (cols : List ColumnDescriptor) (b : Bool)
    (columns : List ColumnDescriptor)
    (h : buildTableColumns cols b = Except.ok columns) :
    if b then ∃ front, columns = front ++ [rowidColumn, deletedColumn]
    else ∃ front, columns = front ++ [rowidColumn] := by
  unfold buildTableColumns at h
  split at h
  · exact absurd h (by simp)
  · rename_i expanded hexp
    injection h with h1
    by_cases hb : b
    · rw [if_pos hb]
      refine ⟨expanded, ?_⟩
      rw [← h1]
      simp [hb]
    · rw [if_neg hb]
      refine ⟨expanded, ?_⟩
      rw [← h1]
      simp [hb]

/-- C4: for every table built by `Catalog::createTable`, column ids are
assigned contiguously from 1 in the declared (expanded) order, and the
synthetic `rowid` column is always the last column, with the synthetic
deleted-row marker column appended after it when the table is versioned
(`hasDeletedCol`). -/
theorem createTable_column_layout (s : CatalogState) (td0 : TableDescriptor)
    (cols : List ColumnDescriptor) (defs : List SharedDictionaryDef) (isL : Bool)
    (hok : (createTable s td0 cols defs isL).err = none)
    (hfresh : ∀ p ∈ s.columnDescriptorMapById,
      p.1.1 ≠ (createTable s td0 cols defs isL).table.tableId) :
    ∃ (columns cds : List ColumnDescriptor),
      buildTableColumns cols td0.hasDeletedCol = Except.ok columns ∧
      (createTable s td0 cols defs isL).table.nColumns = (columns.length : Int) ∧
      cds.length = columns.length ∧
      (∀ j (hj : j < cds.length) (hj2 : j < columns.length),
        (cds.get ⟨j, hj⟩).columnId = (j : Int) + 1 ∧
        sameColumnHeader (cds.get ⟨j, hj⟩) (columns.get ⟨j, hj2⟩) ∧
        alookup (createTable s td0 cols defs isL).state.columnDescriptorMapById
          ((createTable s td0 cols defs isL).table.tableId, (j : Int) + 1) =
          some (cds.get ⟨j, hj⟩)) ∧
      (∀ i : Int,
        (alookup (createTable s td0 cols defs isL).state.columnDescriptorMapById
          ((createTable s td0 cols defs isL).table.tableId, i)).isSome = true ↔
        (1 ≤ i ∧ i ≤ (columns.length : Int))) ∧
      (if td0.hasDeletedCol then
         ∃ front, columns = front ++ [rowidColumn, deletedColumn]
       else ∃ front, columns = front ++ [rowidColumn]) := by
  obtain ⟨columns, cds, dds, sBase, tdI, hbuild, hrec, hN, hBase, hlen, hprop⟩ :=
    createTable_success_shape s td0 cols defs isL _ rfl hok
  rw [hrec] at hfresh ⊢
  dsimp only at hfresh ⊢
  have hfresh' : ∀ p ∈ sBase.columnDescriptorMapById, p.1.1 ≠ tdI.tableId :=
    fun p hp => hfresh p (hBase ▸ hp)
  have hlk := addTableToMap_column_lookup tdI columns sBase cds dds hlen
    (fun j hj => ⟨(hprop j hj (hlen ▸ hj)).1, (hprop j hj (hlen ▸ hj)).2.1⟩) hfresh'
  refine ⟨columns, cds, hbuild, hN, hlen, ?_, hlk.2, ?_⟩
  · intro j hj hj2
    refine ⟨?_, (hprop j hj hj2).2.2, hlk.1 j hj⟩
    rw [(hprop j hj hj2).1]
    ring
  · exact buildTableColumns_tail cols td0.hasDeletedCol columns hbuild

/-- Sample declared column for the C4/C7 witnesses. -/
def sampleColA : ColumnDescriptor :=
  { columnName := "a", columnType := { type := SQLTypes.kINT } }

/-- Witness for C4: creating table `t(a int)` in the empty catalog. -/
theorem createTable_column_layout_witness :
    ((createTable sampleCat sampleTd [sampleColA] [] true).err = none ∧
     (∀ p ∈ sampleCat.columnDescriptorMapById,
       p.1.1 ≠ (createTable sampleCat sampleTd [sampleColA] [] true).table.tableId)) ∧
    (∃ (columns cds : List ColumnDescriptor),
      buildTableColumns [sampleColA] sampleTd.hasDeletedCol = Except.ok columns ∧
      (createTable sampleCat sampleTd [sampleColA] [] true).table.nColumns =
        (columns.length : Int) ∧
      cds.length = columns.length ∧
      (∀ j (hj : j < cds.length) (hj2 : j < columns.length),
        (cds.get ⟨j, hj⟩).columnId = (j : Int) + 1 ∧
        sameColumnHeader (cds.get ⟨j, hj⟩) (columns.get ⟨j, hj2⟩) ∧
        alookup
          (createTable sampleCat sampleTd [sampleColA] [] true).state.columnDescriptorMapById
          ((createTable sampleCat sampleTd [sampleColA] [] true).table.tableId,
            (j : Int) + 1) =
          some (cds.get ⟨j, hj⟩)) ∧
      (∀ i : Int,
        (alookup
          (createTable sampleCat sampleTd [sampleColA] [] true).state.columnDescriptorMapById
          ((createTable sampleCat sampleTd [sampleColA] [] true).table.tableId,
            i)).isSome = true ↔
        (1 ≤ i ∧ i ≤ (columns.length : Int))) ∧
      (if sampleTd.hasDeletedCol then
         ∃ front, columns = front ++ [rowidColumn, deletedColumn]
       else ∃ front, columns = front ++ [rowidColumn])) :=
  ⟨⟨by decide, by decide⟩,
   createTable_column_layout sampleCat sampleTd [sampleColA] [] true
     (by decide) (by decide)⟩

/-! ## C7 helper lemmas -/

/-- The id-assignment performed by the column loops: tag each column of
the built list with the table id and the running column id. -/
def numberColumns (tid : Int) : Int → List ColumnDescriptor → List ColumnDescriptor
  | _, [] => []
  | colId, cd :: rest =>
    { cd with tableId := tid, columnId := colId } :: numberColumns tid (colId + 1) rest

theorem insertColumnsLoop_no_dict (td : TableDescriptor)
    (defs : List SharedDictionaryDef) (isL : Bool) :
    ∀ (cols : List ColumnDescriptor) (colId : Int) (s : CatalogState)
      (cds : List ColumnDescriptor) (dds : List DictDescriptor),
      (∀ cd ∈ cols, cd.columnType.compression ≠ EncodingType.kENCODING_DICT) →
      insertColumnsLoop td defs isL cols colId s cds dds =
        Except.ok
          ({ s with storeColumns :=
              s.storeColumns ++ numberColumns td.tableId colId cols },
           cds ++ numberColumns td.tableId colId cols, dds) := by
  intro cols
  induction cols with
  | nil =>
    intro colId s cds dds hnd
    simp [insertColumnsLoop, numberColumns]
  | cons hd tl ih =>
    intro colId s cds dds hnd
    have hhd : hd.columnType.compression ≠ EncodingType.kENCODING_DICT :=
      hnd hd (by simp)
    unfold insertColumnsLoop
    rw [if_neg hhd]
    try dsimp only
    rw [ih (colId + 1) _ _ _ (fun cd hcd => hnd cd (by simp [hcd]))]
    simp [numberColumns]

theorem expandColumn_no_dict (cd : ColumnDescriptor)
    (h : cd.columnType.compression ≠ EncodingType.kENCODING_DICT)
    (l : List ColumnDescriptor) (hl : expandColumn cd = Except.ok l) :
    ∀ c ∈ l, c.columnType.compression ≠ EncodingType.kENCODING_DICT := by
  unfold expandColumn at hl
  split at hl
  · exact absurd hl (by simp)
  · split at hl
    · split at hl <;>
        first
        | (injection hl with h1
           subst h1
           intro c hc
           cases List.mem_cons.mp hc with
           | inl h1 =>
             subst h1
             exact h
           | inr h2 =>
             fin_cases h2 <;>
               intro hco <;>
               simp [geoCoordsColumn, geoRingSizesColumn, geoPolyRingsColumn,
                 geoRenderGroupColumn] at hco)
        | exact absurd hl (by simp)
    · injection hl with h1
      subst h1
      intro c hc
      simp only [List.mem_singleton] at hc
      subst hc
      exact h

theorem expandColumnsLoop_no_dict :
    ∀ (cols acc out : List ColumnDescriptor),
      (∀ cd ∈ cols, cd.columnType.compression ≠ EncodingType.kENCODING_DICT) →
      (∀ cd ∈ acc, cd.columnType.compression ≠ EncodingType.kENCODING_DICT) →
      expandColumnsLoop cols acc = Except.ok out →
      ∀ cd ∈ out, cd.columnType.compression ≠ EncodingType.kENCODING_DICT := by
  intro cols
  induction cols with
  | nil =>
    intro acc out hcols hacc h
    unfold expandColumnsLoop at h
    injection h with h1
    subst h1
    exact hacc
  | cons hd tl ih =>
    intro acc out hcols hacc h
    unfold expandColumnsLoop at h
    split at h
    · exact absurd h (by simp)
    · rename_i l hl
      refine ih _ _ (fun cd hcd => hcols cd (by simp [hcd])) ?_ h
      intro cd hcd
      rcases List.mem_append.mp hcd with hm | hm
      · exact hacc cd hm
      · exact expandColumn_no_dict hd (hcols hd (by simp)) l hl cd hm

theorem buildTableColumns_no_dict (cols : List ColumnDescriptor) (b : Bool)
    (columns : List ColumnDescriptor)
    (h : buildTableColumns cols b = Except.ok columns)
    (hnd : ∀ cd ∈ cols, cd.columnType.compression ≠ EncodingType.kENCODING_DICT) :
    ∀ cd ∈ columns, cd.columnType.compression ≠ EncodingType.kENCODING_DICT := by
  unfold buildTableColumns at h
  split at h
  · exact absurd h (by simp)
  · rename_i expanded hexp
    injection h with h1
    subst h1
    intro cd hcd
    rcases List.mem_append.mp hcd with hm | hm
    · rcases List.mem_append.mp hm with hm2 | hm2
      · exact expandColumnsLoop_no_dict cols [] expanded hnd (by simp) hexp cd hm2
      · simp only [List.mem_singleton] at hm2
        subst hm2
        intro hco
        cases hco
    · split at hm
      · simp only [List.mem_singleton] at hm
        subst hm
        intro hco
        cases hco
      · simp at hm

theorem buildTableColumns_ok_of_no_rowid (cols : List ColumnDescriptor) (b : Bool)
    (h : ∀ cd ∈ cols, cd.columnName ≠ "rowid") :
    ∃ columns, buildTableColumns cols b = Except.ok columns := by
  suffices hs : ∀ acc, ∃ out, expandColumnsLoop cols acc = Except.ok out by
    obtain ⟨out, hout⟩ := hs []
    refine ⟨out ++ [rowidColumn] ++ (if b then [deletedColumn] else []), ?_⟩
    unfold buildTableColumns
    rw [hout]
  induction cols with
  | nil =>
    intro acc
    exact ⟨acc, rfl⟩
  | cons hd tl ih =>
    intro acc
    have hh : hd.columnName ≠ "rowid" := h hd (by simp)
    have hok : ∃ l, expandColumn hd = Except.ok l := by
      unfold expandColumn
      rw [if_neg hh]
      cases htype : hd.columnType.type <;> simp [IS_GEO, htype]
    obtain ⟨l, hl⟩ := hok
    have ih' := ih (fun cd hcd => h cd (by simp [hcd]))
    obtain ⟨out, hout⟩ := ih' (acc ++ l)
    exact ⟨out, by simp [expandColumnsLoop, hl, hout]⟩

theorem addTableToMap_fields (sB : CatalogState) (tdI : TableDescriptor)
    (cds : List ColumnDescriptor) (dds : List DictDescriptor) :
    (addTableToMap sB tdI cds dds).tableDescriptorMapById =
      aupsert sB.tableDescriptorMapById tdI.tableId tdI ∧
    (addTableToMap sB tdI cds dds).logicalToPhysicalTableMapById =
      sB.logicalToPhysicalTableMapById ∧
    (addTableToMap sB tdI cds dds).storeTables = sB.storeTables ∧
    (addTableToMap sB tdI cds dds).nextTableId = sB.nextTableId ∧
    (addTableToMap sB tdI cds dds).storeLogicalToPhysical =
      sB.storeLogicalToPhysical := by
  have hc := registerColumns_untouched tdI cds
    { sB with
      tableDescriptorMap := aupsert sB.tableDescriptorMap (to_upper tdI.tableName) tdI.tableId,
      tableDescriptorMapById := aupsert sB.tableDescriptorMapById tdI.tableId tdI }
  have hd := registerDicts_untouched dds
    (registerColumns tdI
      { sB with
        tableDescriptorMap := aupsert sB.tableDescriptorMap (to_upper tdI.tableName) tdI.tableId,
        tableDescriptorMapById := aupsert sB.tableDescriptorMapById tdI.tableId tdI } cds)
  unfold addTableToMap
  try dsimp only
  refine ⟨?_, ?_, ?_, ?_, ?_⟩
  · rw [hd.2.2.2.2.2.1, hc.2.2.2.2.2.2.1]
  · rw [hd.2.2.2.2.2.2.2.2.2, hc.2.2.2.2.2.2.2.1]
  · rw [hd.1, hc.1]
  · rw [hd.2.2.2.1, hc.2.2.2.2.1]
  · rw [hd.2.2.1, hc.2.2.2.1]

/-- The table descriptor as written to the store on the persistent path:
the declared descriptor with the expanded column count and assigned id. -/
def tdNumbered (td0 : TableDescriptor) (columns : List ColumnDescriptor)
    (tid : Int) : TableDescriptor :=
  { td0 with nColumns := (columns.length : Int), tableId := tid }

/-- The catalog store state after the `createTable` transaction body on the
persistent, dictionary-free path: the table row and numbered column rows
are appended and the table-id counter advances. -/
def storeAfterCreate (s : CatalogState) (td0 : TableDescriptor)
    (columns : List ColumnDescriptor) : CatalogState :=
  { s with
    storeTables := s.storeTables ++ [tdNumbered td0 columns s.nextTableId],
    nextTableId := s.nextTableId + 1,
    storeColumns := s.storeColumns ++ numberColumns s.nextTableId 1 columns }

/-- Exact characterisation of `createTable` on the persistent path when
no declared column is dictionary-encoded: one table row, the numbered
column rows, no dictionaries, and the in-memory registration. -/
theorem createTable_no_dict (s : CatalogState) (td0 : TableDescriptor)
    (cols : List ColumnDescriptor) (defs : List SharedDictionaryDef)
    (isL : Bool) (columns : List ColumnDescriptor)
    (hdisk : td0.persistenceDisk = true)
    (hbuild : buildTableColumns cols td0.hasDeletedCol = Except.ok columns)
    (hnd : ∀ cd ∈ cols, cd.columnType.compression ≠ EncodingType.kENCODING_DICT)
    (hview : td0.isView = false)
    (hfresh : ∀ t ∈ s.storeTables, t.tableName ≠ td0.tableName) :
    createTable s td0 cols defs isL =
      { err := none,
        state := addTableToMap (storeAfterCreate s td0 columns)
          (tdNumbered td0 columns s.nextTableId)
          (numberColumns s.nextTableId 1 columns) [],
        table := tdNumbered td0 columns s.nextTableId } := by
  have hany : (s.storeTables.any (fun t => t.tableName == td0.tableName)) = false := by
    rw [List.any_eq_false]
    intro t ht
    simp only [beq_iff_eq]
    exact hfresh t ht
  have hndcols := buildTableColumns_no_dict cols td0.hasDeletedCol columns hbuild hnd
  unfold createTable
  rw [hbuild]
  try dsimp only
  rw [if_pos hdisk, hany]
  try dsimp only
  rw [insertColumnsLoop_no_dict _ _ _ columns 1 _ [] [] hndcols]
  try dsimp only
  rw [if_neg (by simp [hview])]
  rw [if_neg (show ¬(td0.isView = true) by simp [hview])]
  rfl

/-- The physical-shard table descriptor created for shard number `i`:
the logical descriptor renamed by the fixed shard convention with shard
index `i - 1` (this is the `tdp` constructed by `createShardedTable`). -/
def physTd (td : TableDescriptor) (i : Int) : TableDescriptor :=
  { td with tableName := generatePhysicalTableName td.tableName i, shard := i - 1 }

/-- The physical table rows appended by the shard loop, starting at table
id `tid`, for the given list of shard numbers. -/
def shardTables (td : TableDescriptor) (columns : List ColumnDescriptor) :
    List Int → Int → List TableDescriptor
  | [], _ => []
  | i :: rest, tid =>
    tdNumbered (physTd td i) columns tid :: shardTables td columns rest (tid + 1)

/-- The physical table ids accumulated by the shard loop, starting at
table id `tid`. -/
def shardIds : List Int → Int → List Int
  | [], _ => []
  | _ :: rest, tid => tid :: shardIds rest (tid + 1)

theorem shardIds_eq : ∀ (ns : List Int) (tid : Int),
    shardIds ns tid = (List.range ns.length).map (fun j : Nat => tid + (j : Int)) := by
  intro ns
  induction ns with
  | nil => intro tid; simp [shardIds]
  | cons i rest ih =>
    intro tid
    rw [shardIds, ih (tid + 1), List.length_cons, List.range_succ_eq_map]
    simp only [List.map_cons, List.map_map, Nat.cast_zero, add_zero]
    have hfun : (fun j : Nat => tid + (j : Int)) ∘ Nat.succ =
        fun j : Nat => tid + 1 + (j : Int) := by
      funext j
      try simp only [Function.comp_apply]
      push_cast
      ring
    rw [hfun]

theorem shardTables_shardNumbers (td : TableDescriptor)
    (columns : List ColumnDescriptor) :
    ∀ (K : Nat) (off tid : Int),
      shardTables td columns ((List.range K).map (fun k : Nat => (k : Int) + off)) tid =
        (List.range K).map
          (fun k : Nat =>
            tdNumbered (physTd td ((k : Int) + off)) columns (tid + (k : Int))) := by
  intro K
  induction K with
  | zero => intro off tid; simp [shardTables]
  | succ n ih =>
    intro off tid
    rw [List.range_succ_eq_map]
    simp only [List.map_cons, List.map_map, Nat.cast_zero, zero_add, add_zero]
    rw [shardTables]
    have hfun1 : (fun k : Nat => (k : Int) + off) ∘ Nat.succ =
        fun k : Nat => (k : Int) + (off + 1) := by
      funext k
      try simp only [Function.comp_apply]
      push_cast
      ring
    rw [hfun1, ih (off + 1) (tid + 1)]
    have hfun2 : (fun k : Nat =>
          tdNumbered (physTd td ((k : Int) + (off + 1))) columns (tid + 1 + (k : Int))) =
        (fun k : Nat =>
          tdNumbered (physTd td ((k : Int) + off)) columns (tid + (k : Int))) ∘ Nat.succ := by
      funext k
      have h1 : ((k : Int) + (off + 1)) = ((k.succ : Nat) : Int) + off := by
        push_cast
        ring
      have h2 : (tid + 1 + (k : Int)) = tid + ((k.succ : Nat) : Int) := by
        push_cast
        ring
      simp only [Function.comp]
      rw [h1, h2]
    rw [hfun2]

theorem l2pFoldl (lid : Int) : ∀ (ps : List Int) (st : CatalogState),
    ps.foldl (fun st2 p =>
      { st2 with storeLogicalToPhysical := st2.storeLogicalToPhysical ++ [(lid, p)] }) st =
    { st with storeLogicalToPhysical :=
        st.storeLogicalToPhysical ++ ps.map (fun p => (lid, p)) } := by
  intro ps
  induction ps with
  | nil => intro st; simp
  | cons p rest ih =>
    intro st
    rw [List.foldl_cons, ih]
    simp [List.append_assoc]

theorem updateL2P_fields (s : CatalogState) (lid : Int) (ps : List Int)
    (halo : alookup s.logicalToPhysicalTableMapById lid = some ps) :
    (updateLogicalToPhysicalTableMap s lid).storeTables = s.storeTables ∧
    (updateLogicalToPhysicalTableMap s lid).logicalToPhysicalTableMapById =
      s.logicalToPhysicalTableMapById ∧
    (updateLogicalToPhysicalTableMap s lid).storeLogicalToPhysical =
      s.storeLogicalToPhysical ++ ps.map (fun p => (lid, p)) := by
  unfold updateLogicalToPhysicalTableMap
  rw [halo]
  try dsimp only
  rw [l2pFoldl]
  exact ⟨rfl, rfl, rfl⟩

theorem shardLoop_cons (td : TableDescriptor) (cols : List ColumnDescriptor)
    (defs : List SharedDictionaryDef) (columns : List ColumnDescriptor)
    (i : Int) (rest : List Int) (s0 : CatalogState) (acc : List Int)
    (hdisk : td.persistenceDisk = true)
    (hbuild : buildTableColumns cols td.hasDeletedCol = Except.ok columns)
    (hnd : ∀ cd ∈ cols, cd.columnType.compression ≠ EncodingType.kENCODING_DICT)
    (hview : td.isView = false)
    (hfresh : ∀ t ∈ s0.storeTables,
      t.tableName ≠ generatePhysicalTableName td.tableName i) :
    shardLoop td cols defs (i :: rest) s0 acc =
      shardLoop td cols defs rest
        (addTableToMap (storeAfterCreate s0 (physTd td i) columns)
          (tdNumbered (physTd td i) columns s0.nextTableId)
          (numberColumns s0.nextTableId 1 columns) [])
        (acc ++ [s0.nextTableId]) := by
  have hct := createTable_no_dict s0 (physTd td i) cols defs false columns hdisk
    hbuild hnd hview hfresh
  conv_lhs => rw [shardLoop]
  try dsimp only
  rw [show ({ td with tableName := generatePhysicalTableName td.tableName i, shard := i - 1 } : TableDescriptor) = physTd td i from rfl]
  rw [hct]
  try dsimp only [tdNumbered]
  try rfl

theorem shardLoop_spec (td : TableDescriptor) (cols : List ColumnDescriptor)
    (defs : List SharedDictionaryDef) (columns : List ColumnDescriptor)
    (hdisk : td.persistenceDisk = true)
    (hbuild : buildTableColumns cols td.hasDeletedCol = Except.ok columns)
    (hnd : ∀ cd ∈ cols, cd.columnType.compression ≠ EncodingType.kENCODING_DICT)
    (hview : td.isView = false) :
    ∀ (ns : List Int) (s0 : CatalogState) (acc : List Int),
      (∀ i ∈ ns, ∀ t ∈ s0.storeTables,
        t.tableName ≠ generatePhysicalTableName td.tableName i) →
      (ns.map (generatePhysicalTableName td.tableName)).Nodup →
      ∃ sF, shardLoop td cols defs ns s0 acc =
          (none, sF, acc ++ shardIds ns s0.nextTableId) ∧
        sF.storeTables = s0.storeTables ++ shardTables td columns ns s0.nextTableId ∧
        sF.nextTableId = s0.nextTableId + (ns.length : Int) ∧
        sF.logicalToPhysicalTableMapById = s0.logicalToPhysicalTableMapById ∧
        sF.storeLogicalToPhysical = s0.storeLogicalToPhysical := by
  intro ns
  induction ns with
  | nil =>
    intro s0 acc h1 h2
    exact ⟨s0, by simp [shardLoop, shardIds], by simp [shardTables], by simp, rfl, rfl⟩
  | cons i rest ih =>
    intro s0 acc h1 h2
    simp only [List.map_cons, List.nodup_cons] at h2
    rw [shardLoop_cons td cols defs columns i rest s0 acc hdisk hbuild hnd hview
      (h1 i (by simp))]
    have hf := addTableToMap_fields (storeAfterCreate s0 (physTd td i) columns)
      (tdNumbered (physTd td i) columns s0.nextTableId)
      (numberColumns s0.nextTableId 1 columns) []
    set s1 := addTableToMap (storeAfterCreate s0 (physTd td i) columns)
      (tdNumbered (physTd td i) columns s0.nextTableId)
      (numberColumns s0.nextTableId 1 columns) [] with hs1
    have hst : s1.storeTables =
        s0.storeTables ++ [tdNumbered (physTd td i) columns s0.nextTableId] := hf.2.2.1
    have hnext : s1.nextTableId = s0.nextTableId + 1 := hf.2.2.2.1
    have hl2p : s1.logicalToPhysicalTableMapById =
        s0.logicalToPhysicalTableMapById := hf.2.1
    have hslp : s1.storeLogicalToPhysical = s0.storeLogicalToPhysical := hf.2.2.2.2
    have h1n : ∀ i2 ∈ rest, ∀ t ∈ s1.storeTables,
        t.tableName ≠ generatePhysicalTableName td.tableName i2 := by
      intro i2 hi2 t ht
      rw [hst] at ht
      rcases List.mem_append.mp ht with hm | hm
      · exact h1 i2 (by simp [hi2]) t hm
      · simp only [List.mem_singleton] at hm
        subst hm
        have hne : generatePhysicalTableName td.tableName i ≠
            generatePhysicalTableName td.tableName i2 := by
          intro heq
          apply h2.1
          rw [heq]
          exact List.mem_map_of_mem _ hi2
        simpa [tdNumbered, physTd] using hne
    obtain ⟨sF, heq, hT, hN, hLP, hSLP⟩ := ih s1 (acc ++ [s0.nextTableId]) h1n h2.2
    refine ⟨sF, ?_, ?_, ?_, ?_, ?_⟩
    · rw [heq, hnext]
      simp [shardIds]
    · rw [hT, hst, hnext]
      simp [shardTables]
    · rw [hN, hnext]
      simp only [List.length_cons]
      push_cast
      ring
    · rw [hLP, hl2p]
    · rw [hSLP, hslp]

/-- C7: `Catalog::createShardedTable` with shard count `K > 0` creates
exactly one logical table row plus `K` physical table rows named by the
fixed convention `generatePhysicalTableName <logicalName> k` (that is,
`<logicalName>_shard_#k`) for `k = 1..K`, carrying shard indices
`0..K-1` and consecutive table ids, and records all `K` physical table
ids under the logical table id in the in-memory logical-to-physical map
and as persisted `mapd_logical_to_physical` rows. -/
theorem createShardedTable_spec (s : CatalogState) (td : TableDescriptor)
    (cols : List ColumnDescriptor) (defs : List SharedDictionaryDef)
    (K : Nat) (columns : List ColumnDescriptor)
    (hK : td.nShards = (K : Int)) (hKpos : 0 < K)
    (hshard : 0 < td.shardedColumnId ∧ td.shardedColumnId ≤ (cols.length : Int))
    (hdisk : td.persistenceDisk = true)
    (hview : td.isView = false)
    (hbuild : buildTableColumns cols td.hasDeletedCol = Except.ok columns)
    (hnd : ∀ cd ∈ cols, cd.columnType.compression ≠ EncodingType.kENCODING_DICT)
    (hnames : (td.tableName ::
      (List.range K).map
        (fun k : Nat => generatePhysicalTableName td.tableName ((k : Int) + 1))).Nodup)
    (hfresh : ∀ n ∈ td.tableName ::
      (List.range K).map
        (fun k : Nat => generatePhysicalTableName td.tableName ((k : Int) + 1)),
      ∀ t ∈ s.storeTables, t.tableName ≠ n)
    (hmap : alookup s.logicalToPhysicalTableMapById s.nextTableId = none) :
    (createShardedTable s td cols defs).1 = none ∧
    (createShardedTable s td cols defs).2.storeTables =
      s.storeTables ++ [tdNumbered td columns s.nextTableId] ++
        (List.range K).map
          (fun k : Nat =>
            tdNumbered (physTd td ((k : Int) + 1)) columns
              (s.nextTableId + 1 + (k : Int))) ∧
    (∀ k, k < K →
      (physTd td ((k : Int) + 1)).tableName =
        generatePhysicalTableName td.tableName ((k : Int) + 1) ∧
      (physTd td ((k : Int) + 1)).shard = (k : Int)) ∧
    alookup (createShardedTable s td cols defs).2.logicalToPhysicalTableMapById
        s.nextTableId =
      some ((List.range K).map (fun k : Nat => s.nextTableId + 1 + (k : Int))) ∧
    (createShardedTable s td cols defs).2.storeLogicalToPhysical =
      s.storeLogicalToPhysical ++
        (List.range K).map
          (fun k : Nat => (s.nextTableId, s.nextTableId + 1 + (k : Int))) := by
  obtain ⟨hsc1, hsc2⟩ := hshard
  have hfreshL : ∀ t ∈ s.storeTables, t.tableName ≠ td.tableName :=
    hfresh td.tableName (by simp)
  have hctL := createTable_no_dict s td cols defs true columns hdisk hbuild hnd
    hview hfreshL
  have hfL := addTableToMap_fields (storeAfterCreate s td columns)
    (tdNumbered td columns s.nextTableId) (numberColumns s.nextTableId 1 columns) []
  set sL := addTableToMap (storeAfterCreate s td columns)
    (tdNumbered td columns s.nextTableId)
    (numberColumns s.nextTableId 1 columns) [] with hsL
  have hstL : sL.storeTables =
      s.storeTables ++ [tdNumbered td columns s.nextTableId] := hfL.2.2.1
  have hnextL : sL.nextTableId = s.nextTableId + 1 := hfL.2.2.2.1
  have hl2pL : sL.logicalToPhysicalTableMapById =
      s.logicalToPhysicalTableMapById := hfL.2.1
  have hslpL : sL.storeLogicalToPhysical = s.storeLogicalToPhysical := hfL.2.2.2.2
  have hnodup2 : (((List.range K).map (fun k : Nat => (k : Int) + 1)).map
      (generatePhysicalTableName td.tableName)).Nodup := by
    rw [List.map_map]
    have hrest := (List.nodup_cons.mp hnames).2
    simpa [Function.comp] using hrest
  have h1sh : ∀ i ∈ (List.range K).map (fun k : Nat => (k : Int) + 1),
      ∀ t ∈ sL.storeTables, t.tableName ≠ generatePhysicalTableName td.tableName i := by
    intro i hi t ht
    rw [hstL] at ht
    obtain ⟨k, hk, rfl⟩ := List.mem_map.mp hi
    rcases List.mem_append.mp ht with hm | hm
    · refine hfresh _ ?_ t hm
      exact List.mem_cons_of_mem _ (List.mem_map_of_mem _ hk)
    · simp only [List.mem_singleton] at hm
      subst hm
      have hnotin := (List.nodup_cons.mp hnames).1
      intro heq
      apply hnotin
      have heq2 : td.tableName =
          generatePhysicalTableName td.tableName ((k : Int) + 1) := by
        simpa [tdNumbered] using heq
      exact List.mem_map.mpr ⟨k, hk, heq2.symm⟩
  obtain ⟨sF, heqF, hTF, hNF, hLPF, hSLPF⟩ :=
    shardLoop_spec td cols defs columns hdisk hbuild hnd hview
      ((List.range K).map (fun k : Nat => (k : Int) + 1)) sL [] h1sh hnodup2
  have hids : shardIds ((List.range K).map (fun k : Nat => (k : Int) + 1))
        sL.nextTableId =
      (List.range K).map (fun k : Nat => s.nextTableId + 1 + (k : Int)) := by
    rw [shardIds_eq, hnextL]
    simp only [List.length_map, List.length_range]
  have halo : alookup sF.logicalToPhysicalTableMapById s.nextTableId = none := by
    rw [hLPF, hl2pL]
    exact hmap
  set s2 := { sF with logicalToPhysicalTableMapById := aupsert sF.logicalToPhysicalTableMapById s.nextTableId ((List.range K).map (fun k : Nat => s.nextTableId + 1 + (k : Int))) } with hs2
  have hmain : createShardedTable s td cols defs =
      (none, updateLogicalToPhysicalTableMap s2 s.nextTableId) := by
    have hcond : ¬((td.nShards > 0 &&
        (td.shardedColumnId ≤ 0 || (cols.length : Int) < td.shardedColumnId) : Bool)
          = true) := by
      simp only [Bool.and_eq_true, Bool.or_eq_true, decide_eq_true_eq, not_and, not_or]
      intro _
      exact ⟨by omega, by omega⟩
    unfold createShardedTable
    rw [if_neg hcond]
    try dsimp only
    rw [hctL]
    try dsimp only [tdNumbered]
    rw [hK]
    simp only [Int.toNat_natCast]
    rw [heqF]
    try dsimp only
    rw [hids]
    simp only [List.nil_append]
    have hne : ((List.range K).map
        (fun k : Nat => s.nextTableId + 1 + (k : Int))).isEmpty = false := by
      rw [Bool.eq_false_iff]
      intro hemp
      rw [List.isEmpty_iff_length_eq_zero] at hemp
      simp only [List.length_map, List.length_range] at hemp
      omega
    rw [hne]
    try simp only [Bool.false_eq_true, if_false]
    try dsimp only
    rw [halo]
    try dsimp only
    try rfl
  have halo2 : alookup s2.logicalToPhysicalTableMapById s.nextTableId =
      some ((List.range K).map (fun k : Nat => s.nextTableId + 1 + (k : Int))) := by
    rw [hs2]
    exact alookup_upsert_self _ _ _
  have hup := updateL2P_fields s2 s.nextTableId
    ((List.range K).map (fun k : Nat => s.nextTableId + 1 + (k : Int))) halo2
  refine ⟨?_, ?_, ?_, ?_, ?_⟩
  · rw [hmain]
  · rw [hmain]
    try dsimp only
    rw [hup.1, hs2]
    try dsimp only
    rw [hTF, hstL, hnextL]
    rw [shardTables_shardNumbers td columns K 1 (s.nextTableId + 1)]
  · intro k hk
    refine ⟨rfl, ?_⟩
    show (k : Int) + 1 - 1 = (k : Int)
    ring
  · rw [hmain]
    try dsimp only
    rw [hup.2.1]
    exact halo2
  · rw [hmain]
    try dsimp only
    rw [hup.2.2, hs2]
    try dsimp only
    rw [hSLPF, hslpL, List.map_map]
    try rfl
    try simp [Function.comp]

/-- Sample sharded table descriptor: two shards on the first column. -/
def tdShard : TableDescriptor :=
  { tableName := "t", nShards := 2, shardedColumnId := 1 }

/-- Witness for C7: creating `t(a int)` with two shards in the empty
catalog produces the logical row, two physical rows named by the shard
convention, and the logical-to-physical mapping in memory and store. -/
theorem createShardedTable_spec_witness :
    (createShardedTable sampleCat tdShard [sampleColA] []).1 = none ∧
    (createShardedTable sampleCat tdShard [sampleColA] []).2.storeTables =
      sampleCat.storeTables ++
        [tdNumbered tdShard [sampleColA, rowidColumn] sampleCat.nextTableId] ++
        (List.range 2).map
          (fun k : Nat =>
            tdNumbered (physTd tdShard ((k : Int) + 1)) [sampleColA, rowidColumn]
              (sampleCat.nextTableId + 1 + (k : Int))) ∧
    (∀ k : Nat, k < 2 →
      (physTd tdShard ((k : Int) + 1)).tableName =
        generatePhysicalTableName tdShard.tableName ((k : Int) + 1) ∧
      (physTd tdShard ((k : Int) + 1)).shard = (k : Int)) ∧
    alookup
        (createShardedTable sampleCat tdShard [sampleColA] []).2.logicalToPhysicalTableMapById
        sampleCat.nextTableId =
      some ((List.range 2).map (fun k : Nat => sampleCat.nextTableId + 1 + (k : Int))) ∧
    (createShardedTable sampleCat tdShard [sampleColA] []).2.storeLogicalToPhysical =
      sampleCat.storeLogicalToPhysical ++
        (List.range 2).map
          (fun k : Nat => (sampleCat.nextTableId, sampleCat.nextTableId + 1 + (k : Int))) :=
  createShardedTable_spec sampleCat tdShard [sampleColA] [] 2 [sampleColA, rowidColumn]
    (by decide) (by decide) (by decide) (by decide) (by decide) (by rfl)
    (by decide) (by decide) (by decide) (by decide)

/-! ## C3 helper definitions and lemmas -/

/-- Whether the registered column `(tableId, i)` is a live
dictionary-encoded column referencing dictionary `d`.  A dictionary id
of `0` (the dummy dictionaries of logical-table shards) never counts,
mirroring the source's `if (… == kENCODING_DICT && dictId)`. -/
def colRefersTo (m : List ((Int × Int) × ColumnDescriptor))
    (tableId i d : Int) : Bool :=
  match alookup m (tableId, i) with
  | some cd =>
    decide (cd.columnType.compression = EncodingType.kENCODING_DICT) &&
      decide (cd.columnType.comp_param = d) && decide (¬(d = 0))
  | none => false

/-- Number of live dictionary-encoded columns among the column ids
`idxs` of table `tableId` referencing dictionary `d`. -/
def countRefs (m : List ((Int × Int) × ColumnDescriptor)) (tableId : Int)
    (idxs : List Int) (d : Int) : Nat :=
  (idxs.filter (fun i => colRefersTo m tableId i d)).length

/-- The refcount bound assumed of one dictionary `d`: it is registered
and its refcount is at least the number of referencing columns. -/
def dictBound (m : List ((Int × Int) × ColumnDescriptor))
    (dicts : List (Int × DictDescriptor)) (tableId : Int)
    (idxs : List Int) (d : Int) : Bool :=
  match alookup dicts d with
  | some dd => decide ((countRefs m tableId idxs d : Int) ≤ dd.refcount)
  | none => false

/-- The per-column form of the refcount invariant assumed on entry to
the deletion loop: if column `i` references a dictionary, that
dictionary satisfies `dictBound`. -/
def dictBoundAt (m : List ((Int × Int) × ColumnDescriptor))
    (dicts : List (Int × DictDescriptor)) (tableId : Int)
    (idxs : List Int) (i : Int) : Bool :=
  match alookup m (tableId, i) with
  | some cd =>
    if cd.columnType.compression = EncodingType.kENCODING_DICT ∧
        ¬(cd.columnType.comp_param = 0) then
      dictBound m dicts tableId idxs cd.columnType.comp_param
    else true
  | none => true

/-- Per-dictionary effect of removing a table: the refcount drops by
exactly the number of referencing columns of the removed table, and the
entry is erased exactly when it reaches zero. -/
def dictAfterRemove (dicts : List (Int × DictDescriptor)) (cnt : Int → Nat)
    (d : Int) : Option DictDescriptor :=
  match alookup dicts d with
  | none => none
  | some dd =>
    if cnt d = 0 then some dd
    else if dd.refcount = (cnt d : Int) then none
    else some { dd with refcount := dd.refcount - (cnt d : Int) }

theorem countRefs_cons (m : List ((Int × Int) × ColumnDescriptor))
    (tableId i : Int) (rest : List Int) (d : Int) :
    countRefs m tableId (i :: rest) d =
      (if colRefersTo m tableId i d then 1 else 0) + countRefs m tableId rest d := by
  by_cases h : colRefersTo m tableId i d
  · simp [countRefs, List.filter_cons, h, Nat.add_comm]
  · simp [countRefs, List.filter_cons, h]

/-- The state after the column-erasure part of one deletion-loop step,
with the dictionary registry replaced by `newDicts`. -/
def eraseColDictState (s : CatalogState) (tableId i : Int)
    (cd : ColumnDescriptor) (newDicts : List (Int × DictDescriptor)) :
    CatalogState :=
  { s with columnDescriptorMapById := aerase s.columnDescriptorMapById (tableId, i), columnDescriptorMap := aerase s.columnDescriptorMap (tableId, to_upper cd.columnName), dictDescriptorMapByRef := newDicts }

theorem eraseColDictState_colsById (s : CatalogState) (tableId i : Int)
    (cd : ColumnDescriptor) (newDicts : List (Int × DictDescriptor)) :
    (eraseColDictState s tableId i cd newDicts).columnDescriptorMapById =
      aerase s.columnDescriptorMapById (tableId, i) := rfl

theorem eraseColDictState_dicts (s : CatalogState) (tableId i : Int)
    (cd : ColumnDescriptor) (newDicts : List (Int × DictDescriptor)) :
    (eraseColDictState s tableId i cd newDicts).dictDescriptorMapByRef =
      newDicts := rfl

theorem removeColumnStep_nondict (isTemp : Bool) (tableId : Int)
    (s : CatalogState) (evs : List Int) (i : Int) (cd : ColumnDescriptor)
    (hcd : alookup s.columnDescriptorMapById (tableId, i) = some cd)
    (hdc : ¬(cd.columnType.compression = EncodingType.kENCODING_DICT ∧
      ¬(cd.columnType.comp_param = 0))) :
    removeColumnStep isTemp tableId (s, evs) i =
      some (eraseColDictState s tableId i cd s.dictDescriptorMapByRef, evs) := by
  unfold removeColumnStep
  rw [hcd]
  try dsimp only
  rw [if_neg hdc]
  rfl

theorem removeColumnStep_dict_erase (isTemp : Bool) (tableId : Int)
    (s : CatalogState) (evs : List Int) (i : Int) (cd : ColumnDescriptor)
    (dd : DictDescriptor)
    (hcd : alookup s.columnDescriptorMapById (tableId, i) = some cd)
    (h1 : cd.columnType.compression = EncodingType.kENCODING_DICT)
    (h2 : ¬(cd.columnType.comp_param = 0))
    (hdd : alookup s.dictDescriptorMapByRef cd.columnType.comp_param = some dd)
    (hge : ¬(dd.refcount < 1)) (hz : dd.refcount - 1 = 0) :
    removeColumnStep isTemp tableId (s, evs) i =
      some (eraseColDictState s tableId i cd
          (aerase s.dictDescriptorMapByRef cd.columnType.comp_param),
        evs ++ (if isTemp then [] else [cd.columnType.comp_param])) := by
  unfold removeColumnStep
  rw [hcd]
  try dsimp only
  rw [if_pos ⟨h1, h2⟩]
  try dsimp only
  rw [hdd]
  try dsimp only
  rw [if_neg hge, if_pos hz]
  rfl

theorem removeColumnStep_dict_dec (isTemp : Bool) (tableId : Int)
    (s : CatalogState) (evs : List Int) (i : Int) (cd : ColumnDescriptor)
    (dd : DictDescriptor)
    (hcd : alookup s.columnDescriptorMapById (tableId, i) = some cd)
    (h1 : cd.columnType.compression = EncodingType.kENCODING_DICT)
    (h2 : ¬(cd.columnType.comp_param = 0))
    (hdd : alookup s.dictDescriptorMapByRef cd.columnType.comp_param = some dd)
    (hge : ¬(dd.refcount < 1)) (hz : ¬(dd.refcount - 1 = 0)) :
    removeColumnStep isTemp tableId (s, evs) i =
      some (eraseColDictState s tableId i cd
          (aupsert s.dictDescriptorMapByRef cd.columnType.comp_param
            { dd with refcount := dd.refcount - 1 }),
        evs) := by
  unfold removeColumnStep
  rw [hcd]
  try dsimp only
  rw [if_pos ⟨h1, h2⟩]
  try dsimp only
  rw [hdd]
  try dsimp only
  rw [if_neg hge, if_neg hz]
  rfl

theorem removeLoop_spec (isTemp : Bool) (tableId : Int) :
    ∀ (idxs : List Int) (s : CatalogState) (evs : List Int),
      idxs.Nodup →
      (∀ i ∈ idxs, (alookup s.columnDescriptorMapById (tableId, i)).isSome = true) →
      (∀ i ∈ idxs, dictBoundAt s.columnDescriptorMapById s.dictDescriptorMapByRef
        tableId idxs i = true) →
      ∃ s' evs2,
        List.foldlM (removeColumnStep isTemp tableId) (s, evs) idxs = some (s', evs2) ∧
        (∀ d, alookup s'.dictDescriptorMapByRef d =
          dictAfterRemove s.dictDescriptorMapByRef
            (countRefs s.columnDescriptorMapById tableId idxs) d) ∧
        (∀ d, d ∈ evs2 ↔ d ∈ evs ∨ (isTemp = false ∧ ∃ dd,
          alookup s.dictDescriptorMapByRef d = some dd ∧
          0 < countRefs s.columnDescriptorMapById tableId idxs d ∧
          dd.refcount = (countRefs s.columnDescriptorMapById tableId idxs d : Int))) := by
  intro idxs
  induction idxs with
  | nil =>
    intro s evs _ _ _
    refine ⟨s, evs, rfl, ?_, ?_⟩
    · intro d
      unfold dictAfterRemove
      cases alookup s.dictDescriptorMapByRef d <;> simp [countRefs]
    · intro d
      simp [countRefs]
  | cons i rest ih =>
    intro s evs hnd hcols hdict
    obtain ⟨hninr, hndr⟩ := List.nodup_cons.mp hnd
    have hi := hcols i (by simp)
    obtain ⟨cd, hcd⟩ := Option.isSome_iff_exists.mp hi
    have hlook : ∀ j, ¬(j = i) →
        alookup (aerase s.columnDescriptorMapById (tableId, i)) (tableId, j) =
          alookup s.columnDescriptorMapById (tableId, j) := by
      intro j hj
      refine alookup_erase_ne _ _ _ ?_
      intro hh
      injection hh with hh1 hh2
      exact hj hh2.symm
    have hcount_rest : ∀ d,
        countRefs (aerase s.columnDescriptorMapById (tableId, i)) tableId rest d =
          countRefs s.columnDescriptorMapById tableId rest d := by
      intro d
      unfold countRefs
      congr 1
      apply List.filter_congr
      intro j hj
      have hji : ¬(j = i) := fun hh => hninr (hh ▸ hj)
      unfold colRefersTo
      rw [hlook j hji]
    have hcols2 : ∀ j ∈ rest,
        (alookup (aerase s.columnDescriptorMapById (tableId, i)) (tableId, j)).isSome
          = true := by
      intro j hj
      have hji : ¬(j = i) := fun hh => hninr (hh ▸ hj)
      rw [hlook j hji]
      exact hcols j (by simp [hj])
    by_cases hdc : cd.columnType.compression = EncodingType.kENCODING_DICT ∧
        ¬(cd.columnType.comp_param = 0)
    · -- column i references dictionary cd.columnType.comp_param
      obtain ⟨h1, h2⟩ := hdc
      have hb := hdict i (by simp)
      unfold dictBoundAt at hb
      rw [hcd] at hb
      try dsimp only at hb
      rw [if_pos ⟨h1, h2⟩] at hb
      unfold dictBound at hb
      cases hdd : alookup s.dictDescriptorMapByRef cd.columnType.comp_param with
      | none =>
        rw [hdd] at hb
        exact absurd hb (by simp)
      | some dd0 =>
        rw [hdd] at hb
        try dsimp only at hb
        rw [decide_eq_true_eq] at hb
        have hcr : ∀ d, colRefersTo s.columnDescriptorMapById tableId i d =
            decide (d = cd.columnType.comp_param) := by
          intro d
          unfold colRefersTo
          rw [hcd]
          by_cases h4 : d = cd.columnType.comp_param
          · simp [h4, h1, h2]
          · have h5 : ¬(cd.columnType.comp_param = d) := fun hh => h4 hh.symm
            simp [h4, h5]
        have hcnt_cons : ∀ d,
            countRefs s.columnDescriptorMapById tableId (i :: rest) d =
              (if d = cd.columnType.comp_param then 1 else 0) +
                countRefs s.columnDescriptorMapById tableId rest d := by
          intro d
          rw [countRefs_cons, hcr d]
          by_cases h4 : d = cd.columnType.comp_param <;> simp [h4]
        have hcnt_ne : ∀ d, ¬(d = cd.columnType.comp_param) →
            countRefs s.columnDescriptorMapById tableId (i :: rest) d =
              countRefs s.columnDescriptorMapById tableId rest d := by
          intro d h4
          rw [hcnt_cons]
          simp [h4]
        have hcnt_pos : 0 < countRefs s.columnDescriptorMapById tableId (i :: rest)
            cd.columnType.comp_param := by
          rw [hcnt_cons]
          simp
        have hcnt_self : countRefs s.columnDescriptorMapById tableId (i :: rest)
            cd.columnType.comp_param =
            1 + countRefs s.columnDescriptorMapById tableId rest
              cd.columnType.comp_param := by
          rw [hcnt_cons]
          simp
        have hge : ¬(dd0.refcount < 1) := by omega
        by_cases hz : dd0.refcount - 1 = 0
        · -- the decrement reaches zero: the dictionary is erased
          have hr1 : dd0.refcount = 1 := by omega
          have hcnt0 : countRefs s.columnDescriptorMapById tableId rest
              cd.columnType.comp_param = 0 := by
            omega
          have hdict2 : ∀ j ∈ rest,
              dictBoundAt (aerase s.columnDescriptorMapById (tableId, i))
                (aerase s.dictDescriptorMapByRef cd.columnType.comp_param)
                tableId rest j = true := by
            intro j hj
            have hji : ¬(j = i) := fun hh => hninr (hh ▸ hj)
            have horig := hdict j (by simp [hj])
            unfold dictBoundAt at horig ⊢
            rw [hlook j hji]
            cases hcdj : alookup s.columnDescriptorMapById (tableId, j) with
            | none => rfl
            | some cdj =>
              rw [hcdj] at horig
              try dsimp only at horig ⊢
              by_cases hdcj : cdj.columnType.compression =
                  EncodingType.kENCODING_DICT ∧ ¬(cdj.columnType.comp_param = 0)
              · rw [if_pos hdcj] at horig ⊢
                have hjne : ¬(cdj.columnType.comp_param = cd.columnType.comp_param) := by
                  intro hh
                  have : colRefersTo s.columnDescriptorMapById tableId j
                      cd.columnType.comp_param = true := by
                    unfold colRefersTo
                    rw [hcdj]
                    simp [hdcj.1, hh, h2]
                  have hmem : j ∈ List.filter
                      (fun j2 => colRefersTo s.columnDescriptorMapById tableId j2
                        cd.columnType.comp_param) rest :=
                    List.mem_filter.mpr ⟨hj, this⟩
                  have : 0 < countRefs s.columnDescriptorMapById tableId rest
                      cd.columnType.comp_param := by
                    unfold countRefs
                    exact List.length_pos.mpr (fun hh2 => by simp [hh2] at hmem)
                  omega
                unfold dictBound at horig ⊢
                rw [alookup_erase_ne _ _ _ (fun hh => hjne hh.symm)]
                cases hddj : alookup s.dictDescriptorMapByRef
                    cdj.columnType.comp_param with
                | none =>
                  rw [hddj] at horig
                  exact absurd horig (by simp)
                | some ddj =>
                  rw [hddj] at horig
                  try dsimp only at horig ⊢
                  rw [decide_eq_true_eq] at horig
                  rw [decide_eq_true_eq]
                  rw [hcount_rest]
                  have hmono : countRefs s.columnDescriptorMapById tableId rest
                      cdj.columnType.comp_param ≤
                      countRefs s.columnDescriptorMapById tableId (i :: rest)
                        cdj.columnType.comp_param := by
                    rw [countRefs_cons]
                    split <;> omega
                  omega
              · rw [if_neg hdcj]
          obtain ⟨s', evs2, hrun, hchar, hev⟩ :=
            ih (eraseColDictState s tableId i cd
              (aerase s.dictDescriptorMapByRef cd.columnType.comp_param))
              (evs ++ (if isTemp then [] else [cd.columnType.comp_param]))
              hndr hcols2 hdict2
          refine ⟨s', evs2, ?_, ?_, ?_⟩
          · rw [List.foldlM_cons,
              removeColumnStep_dict_erase isTemp tableId s evs i cd dd0 hcd h1 h2
                hdd hge hz]
            simpa using hrun
          · intro d
            rw [hchar d, eraseColDictState_dicts, eraseColDictState_colsById]
            have hfun : countRefs (aerase s.columnDescriptorMapById (tableId, i))
                tableId rest = countRefs s.columnDescriptorMapById tableId rest :=
              funext fun d2 => hcount_rest d2
            rw [hfun]
            by_cases h7 : d = cd.columnType.comp_param
            · subst h7
              unfold dictAfterRemove
              rw [alookup_erase_self, hdd, hcnt_self, hcnt0]
              simp [hr1]
            · unfold dictAfterRemove
              rw [alookup_erase_ne _ _ _ (fun hh => h7 hh.symm), hcnt_ne d h7]
          · intro d
            rw [hev d, eraseColDictState_dicts, eraseColDictState_colsById]
            have hfun : countRefs (aerase s.columnDescriptorMapById (tableId, i))
                tableId rest = countRefs s.columnDescriptorMapById tableId rest :=
              funext fun d2 => hcount_rest d2
            rw [hfun]
            by_cases h7 : d = cd.columnType.comp_param
            · subst h7
              rw [alookup_erase_self, hdd, hcnt_self, hcnt0]
              cases hT : isTemp with
              | false =>
                apply iff_of_true
                · left
                  rw [List.mem_append]
                  right
                  simp
                · right
                  refine ⟨rfl, dd0, rfl, by omega, by simp [hr1]⟩
              | true =>
                simp [List.mem_append]
            · rw [alookup_erase_ne _ _ _ (fun hh => h7 hh.symm), hcnt_ne d h7]
              have hmm : d ∈ evs ++ (if isTemp then [] else [cd.columnType.comp_param])
                  ↔ d ∈ evs := by
                cases hT : isTemp <;> simp [List.mem_append, h7]
              rw [hmm]
        · -- the refcount stays positive: decrement and upsert
          have hdict2 : ∀ j ∈ rest,
              dictBoundAt (aerase s.columnDescriptorMapById (tableId, i))
                (aupsert s.dictDescriptorMapByRef cd.columnType.comp_param
                  { dd0 with refcount := dd0.refcount - 1 })
                tableId rest j = true := by
            intro j hj
            have hji : ¬(j = i) := fun hh => hninr (hh ▸ hj)
            have horig := hdict j (by simp [hj])
            unfold dictBoundAt at horig ⊢
            rw [hlook j hji]
            cases hcdj : alookup s.columnDescriptorMapById (tableId, j) with
            | none => rfl
            | some cdj =>
              rw [hcdj] at horig
              try dsimp only at horig ⊢
              by_cases hdcj : cdj.columnType.compression =
                  EncodingType.kENCODING_DICT ∧ ¬(cdj.columnType.comp_param = 0)
              · rw [if_pos hdcj] at horig ⊢
                unfold dictBound at horig ⊢
                by_cases hjd : cdj.columnType.comp_param = cd.columnType.comp_param
                · rw [hjd, alookup_upsert_self]
                  try dsimp only
                  rw [decide_eq_true_eq]
                  rw [hcount_rest]
                  have := hb
                  rw [hcnt_self] at this
                  push_cast at this ⊢
                  omega
                · rw [alookup_upsert_ne _ _ _ _ (fun hh => hjd hh.symm)]
                  cases hddj : alookup s.dictDescriptorMapByRef
                      cdj.columnType.comp_param with
                  | none =>
                    rw [hddj] at horig
                    exact absurd horig (by simp)
                  | some ddj =>
                    rw [hddj] at horig
                    try dsimp only at horig ⊢
                    rw [decide_eq_true_eq] at horig
                    rw [decide_eq_true_eq]
                    rw [hcount_rest]
                    have hmono : countRefs s.columnDescriptorMapById tableId rest
                        cdj.columnType.comp_param ≤
                        countRefs s.columnDescriptorMapById tableId (i :: rest)
                          cdj.columnType.comp_param := by
                      rw [countRefs_cons]
                      split <;> omega
                    omega
              · rw [if_neg hdcj]
          obtain ⟨s', evs2, hrun, hchar, hev⟩ :=
            ih (eraseColDictState s tableId i cd
              (aupsert s.dictDescriptorMapByRef cd.columnType.comp_param
                { dd0 with refcount := dd0.refcount - 1 }))
              evs hndr hcols2 hdict2
          refine ⟨s', evs2, ?_, ?_, ?_⟩
          · rw [List.foldlM_cons,
              removeColumnStep_dict_dec isTemp tableId s evs i cd dd0 hcd h1 h2
                hdd hge hz]
            simpa using hrun
          · intro d
            rw [hchar d, eraseColDictState_dicts, eraseColDictState_colsById]
            have hfun : countRefs (aerase s.columnDescriptorMapById (tableId, i))
                tableId rest = countRefs s.columnDescriptorMapById tableId rest :=
              funext fun d2 => hcount_rest d2
            rw [hfun]
            by_cases h7 : d = cd.columnType.comp_param
            · subst h7
              unfold dictAfterRemove
              rw [alookup_upsert_self, hdd, hcnt_self]
              try dsimp only
              by_cases hcc : countRefs s.columnDescriptorMapById tableId rest
                  cd.columnType.comp_param = 0
              · have hne1 : ¬(dd0.refcount = 1) := by omega
                simp [hcc, hne1]
              · by_cases hrr : dd0.refcount - 1 =
                    (countRefs s.columnDescriptorMapById tableId rest
                      cd.columnType.comp_param : Int)
                · have hrr2 : dd0.refcount =
                      ((1 + countRefs s.columnDescriptorMapById tableId rest
                        cd.columnType.comp_param : Nat) : Int) := by
                    push_cast
                    push_cast at hrr
                    omega
                  rw [if_neg hcc, if_pos hrr,
                    if_neg (show ¬(1 + countRefs s.columnDescriptorMapById tableId
                      rest cd.columnType.comp_param = 0) by omega),
                    if_pos hrr2]
                · have hrr2 : ¬(dd0.refcount =
                      ((1 + countRefs s.columnDescriptorMapById tableId rest
                        cd.columnType.comp_param : Nat) : Int)) := by
                    push_cast
                    push_cast at hrr
                    omega
                  rw [if_neg hcc, if_neg hrr,
                    if_neg (show ¬(1 + countRefs s.columnDescriptorMapById tableId
                      rest cd.columnType.comp_param = 0) by omega),
                    if_neg hrr2]
                  have harith : dd0.refcount - 1 -
                      (countRefs s.columnDescriptorMapById tableId rest
                        cd.columnType.comp_param : Int) =
                      dd0.refcount -
                      ((1 + countRefs s.columnDescriptorMapById tableId rest
                        cd.columnType.comp_param : Nat) : Int) := by
                    push_cast
                    ring
                  rw [harith]
            · unfold dictAfterRemove
              rw [alookup_upsert_ne _ _ _ _ (fun hh => h7 hh.symm), hcnt_ne d h7]
          · intro d
            rw [hev d, eraseColDictState_dicts, eraseColDictState_colsById]
            have hfun : countRefs (aerase s.columnDescriptorMapById (tableId, i))
                tableId rest = countRefs s.columnDescriptorMapById tableId rest :=
              funext fun d2 => hcount_rest d2
            rw [hfun]
            by_cases h7 : d = cd.columnType.comp_param
            · subst h7
              rw [alookup_upsert_self, hdd, hcnt_self]
              apply or_congr Iff.rfl
              apply and_congr Iff.rfl
              constructor
              · rintro ⟨dd, hdd2, hcpos2, hrc⟩
                injection hdd2 with h8
                subst h8
                refine ⟨dd0, rfl, by omega, ?_⟩
                try dsimp only at hrc
                push_cast at hrc ⊢
                omega
              · rintro ⟨dd, hdd2, hcpos2, hrc⟩
                injection hdd2 with h8
                subst h8
                refine ⟨{ dd0 with refcount := dd0.refcount - 1 }, rfl, ?_, ?_⟩
                · push_cast at hrc
                  omega
                · try dsimp only
                  push_cast at hrc ⊢
                  omega
            · rw [alookup_upsert_ne _ _ _ _ (fun hh => h7 hh.symm), hcnt_ne d h7]
    · -- column i references no dictionary: the registries of dictionaries
      -- are untouched by this step
      have hcr : ∀ d, colRefersTo s.columnDescriptorMapById tableId i d = false := by
        intro d
        unfold colRefersTo
        rw [hcd]
        by_cases h1 : cd.columnType.compression = EncodingType.kENCODING_DICT
        · have h2 : cd.columnType.comp_param = 0 := by
            by_contra h3
            exact hdc ⟨h1, h3⟩
          by_cases h4 : d = 0
          · simp [h4]
          · have h5 : ¬(cd.columnType.comp_param = d) := by
              rw [h2]
              intro hh
              exact h4 hh.symm
            simp [h5]
        · simp [h1]
      have hcnt_cons : ∀ d,
          countRefs s.columnDescriptorMapById tableId (i :: rest) d =
            countRefs s.columnDescriptorMapById tableId rest d := by
        intro d
        rw [countRefs_cons, hcr d]
        simp
      have hdict2 : ∀ j ∈ rest,
          dictBoundAt (aerase s.columnDescriptorMapById (tableId, i))
            s.dictDescriptorMapByRef tableId rest j = true := by
        intro j hj
        have hji : ¬(j = i) := fun hh => hninr (hh ▸ hj)
        have horig := hdict j (by simp [hj])
        unfold dictBoundAt at horig ⊢
        rw [hlook j hji]
        cases hcdj : alookup s.columnDescriptorMapById (tableId, j) with
        | none => rfl
        | some cdj =>
          rw [hcdj] at horig
          try dsimp only at horig ⊢
          by_cases hdcj : cdj.columnType.compression =
              EncodingType.kENCODING_DICT ∧ ¬(cdj.columnType.comp_param = 0)
          · rw [if_pos hdcj] at horig ⊢
            unfold dictBound at horig ⊢
            cases hddj : alookup s.dictDescriptorMapByRef
                cdj.columnType.comp_param with
            | none =>
              rw [hddj] at horig
              exact absurd horig (by simp)
            | some ddj =>
              rw [hddj] at horig
              try dsimp only at horig ⊢
              rw [decide_eq_true_eq] at horig
              rw [decide_eq_true_eq]
              rw [hcount_rest]
              have hmono : countRefs s.columnDescriptorMapById tableId rest
                  cdj.columnType.comp_param ≤
                  countRefs s.columnDescriptorMapById tableId (i :: rest)
                    cdj.columnType.comp_param := by
                rw [countRefs_cons]
                split <;> omega
              omega
          · rw [if_neg hdcj]
      obtain ⟨s', evs2, hrun, hchar, hev⟩ :=
        ih (eraseColDictState s tableId i cd s.dictDescriptorMapByRef) evs
          hndr hcols2 hdict2
      have hfun : countRefs (aerase s.columnDescriptorMapById (tableId, i))
          tableId rest = countRefs s.columnDescriptorMapById tableId rest :=
        funext fun d2 => hcount_rest d2
      refine ⟨s', evs2, ?_, ?_, ?_⟩
      · rw [List.foldlM_cons,
          removeColumnStep_nondict isTemp tableId s evs i cd hcd hdc]
        simpa using hrun
      · intro d
        rw [hchar d, eraseColDictState_dicts, eraseColDictState_colsById]
        rw [hfun]
        rw [show countRefs s.columnDescriptorMapById tableId (i :: rest) =
          countRefs s.columnDescriptorMapById tableId rest from
          funext fun d2 => hcnt_cons d2]
      · intro d
        rw [hev d, eraseColDictState_dicts, eraseColDictState_colsById]
        rw [hfun]
        rw [show countRefs s.columnDescriptorMapById tableId (i :: rest) =
          countRefs s.columnDescriptorMapById tableId rest from
          funext fun d2 => hcnt_cons d2]

theorem colIndexList_nodup (n : Int) : (colIndexList n).Nodup := by
  unfold colIndexList
  refine List.Nodup.map ?_ (List.nodup_range _)
  intro a b hab
  have hab2 : (a : Int) + 1 = (b : Int) + 1 := hab
  omega

/-- C3: dictionary refcounts count the live referencing columns.
`addReferenceToForeignDict` increments the referenced dictionary's
refcount by exactly 1 (in memory and in the persisted
`mapd_dictionaries` row) and touches no other dictionary;
`removeTableFromMap` decrements each dictionary's refcount by exactly
the number of the table's dictionary-encoded columns referencing it,
erases the in-memory entry exactly when the refcount reaches zero, and
removes the on-disk dictionary folder for each erased dictionary iff
the table is not temporary. -/
theorem dict_refcount_semantics
    (s : CatalogState) (rc : ColumnDescriptor) (sdd : SharedDictionaryDef)
    (fc : ColumnDescriptor) (dd : DictDescriptor)
    (hfc : get_foreign_col s sdd = some fc)
    (hdd : alookup s.dictDescriptorMapByRef fc.columnType.comp_param = some dd)
    (h1 : 1 ≤ dd.refcount)
    (s2 : CatalogState) (tableName : String) (tableId : Int)
    (td : TableDescriptor)
    (htd : alookup s2.tableDescriptorMapById tableId = some td)
    (hdel : td.hasDeletedCol = true →
      (alookup s2.deletedColumnPerTable tableId).isSome = true)
    (hcols : ∀ i ∈ colIndexList td.nColumns,
      (alookup s2.columnDescriptorMapById (tableId, i)).isSome = true)
    (hdict : ∀ i ∈ colIndexList td.nColumns,
      dictBoundAt s2.columnDescriptorMapById s2.dictDescriptorMapByRef tableId
        (colIndexList td.nColumns) i = true) :
    (∃ s3, addReferenceToForeignDict s rc sdd =
        some (s3, { rc with columnType := fc.columnType }) ∧
      alookup s3.dictDescriptorMapByRef fc.columnType.comp_param =
        some { dd with refcount := dd.refcount + 1 } ∧
      (∀ d, ¬(d = fc.columnType.comp_param) →
        alookup s3.dictDescriptorMapByRef d = alookup s.dictDescriptorMapByRef d) ∧
      s3.storeDicts = s.storeDicts.map (fun r =>
        if r.dictId = fc.columnType.comp_param then
          { r with refcount := r.refcount + 1 } else r)) ∧
    (∃ s' evs,
      removeTableFromMap s2 tableName tableId = some (s', evs) ∧
      (∀ d, alookup s'.dictDescriptorMapByRef d =
        dictAfterRemove s2.dictDescriptorMapByRef
          (countRefs s2.columnDescriptorMapById tableId
            (colIndexList td.nColumns)) d) ∧
      (∀ d, d ∈ evs ↔ (td.persistenceDisk = true ∧ ∃ dd2,
        alookup s2.dictDescriptorMapByRef d = some dd2 ∧
        0 < countRefs s2.columnDescriptorMapById tableId
          (colIndexList td.nColumns) d ∧
        dd2.refcount = (countRefs s2.columnDescriptorMapById tableId
          (colIndexList td.nColumns) d : Int)))) := by
  constructor
  · refine ⟨{ s with dictDescriptorMapByRef := aupsert s.dictDescriptorMapByRef fc.columnType.comp_param { dd with refcount := dd.refcount + 1 }, storeDicts := s.storeDicts.map (fun r => if r.dictId = fc.columnType.comp_param then { r with refcount := r.refcount + 1 } else r) }, ?_, ?_, ?_, ?_⟩
    · unfold addReferenceToForeignDict
      rw [hfc]
      try dsimp only
      rw [hdd]
      try dsimp only
      rw [if_neg (by omega)]
    · exact alookup_upsert_self _ _ _
    · intro d hne2
      exact alookup_upsert_ne _ _ _ _ (fun hh => hne2 hh.symm)
    · rfl
  · by_cases hdc : td.hasDeletedCol = true
    · obtain ⟨x, hx⟩ := Option.isSome_iff_exists.mp (hdel hdc)
      obtain ⟨s', evs2, hrun, hchar, hev⟩ :=
        removeLoop_spec (!td.persistenceDisk) tableId (colIndexList td.nColumns)
          { s2 with deletedColumnPerTable := aerase s2.deletedColumnPerTable tableId, tableDescriptorMapById := aerase s2.tableDescriptorMapById tableId, tableDescriptorMap := aerase s2.tableDescriptorMap (to_upper tableName) }
          [] (colIndexList_nodup _) hcols hdict
      refine ⟨s', evs2, ?_, hchar, ?_⟩
      · unfold removeTableFromMap
        rw [htd]
        try dsimp only
        rw [hdc]
        try dsimp only
        rw [hx]
        try dsimp only
        exact hrun
      · intro d
        rw [hev d]
        simp only [List.not_mem_nil, false_or]
        cases hP : td.persistenceDisk <;> simp [hP]
    · have hdc2 : td.hasDeletedCol = false := by
        cases h : td.hasDeletedCol
        · rfl
        · exact absurd h hdc
      obtain ⟨s', evs2, hrun, hchar, hev⟩ :=
        removeLoop_spec (!td.persistenceDisk) tableId (colIndexList td.nColumns)
          { s2 with tableDescriptorMapById := aerase s2.tableDescriptorMapById tableId, tableDescriptorMap := aerase s2.tableDescriptorMap (to_upper tableName) }
          [] (colIndexList_nodup _) hcols hdict
      refine ⟨s', evs2, ?_, hchar, ?_⟩
      · unfold removeTableFromMap
        rw [htd]
        try dsimp only
        rw [hdc2]
        try dsimp only
        exact hrun
      · intro d
        rw [hev d]
        simp only [List.not_mem_nil, false_or]
        cases hP : td.persistenceDisk <;> simp [hP]

/-- Sample shared dictionary with two referencing columns. -/
def dictSampleDD : DictDescriptor :=
  { dictId := 7, dictName := "d7", dictNBits := 32, dictIsShared := true,
    refcount := 2, dictFolderPath := "p7", dictIsTemp := false }

/-- Sample dictionary-encoded column `c1` referencing dictionary 7. -/
def colD1 : ColumnDescriptor :=
  { columnName := "c1", tableId := 1, columnId := 1,
    columnType := { type := SQLTypes.kTEXT, compression := EncodingType.kENCODING_DICT, comp_param := 7 } }

/-- Sample dictionary-encoded column `c2` referencing dictionary 7. -/
def colD2 : ColumnDescriptor :=
  { columnName := "c2", tableId := 1, columnId := 2,
    columnType := { type := SQLTypes.kTEXT, compression := EncodingType.kENCODING_DICT, comp_param := 7 } }

/-- Sample table `td` with the two dictionary-encoded columns. -/
def tdDict : TableDescriptor := { tableName := "td", tableId := 1, nColumns := 2 }

/-- Sample catalog holding table `td` whose two columns share dictionary
7 with refcount 2. -/
def sampleDictCat : CatalogState :=
  { sampleCat with
    tableDescriptorMap := [(to_upper "td", 1)],
    tableDescriptorMapById := [(1, tdDict)],
    columnDescriptorMap := [((1, to_upper "c1"), colD1), ((1, to_upper "c2"), colD2)],
    columnDescriptorMapById := [((1, 1), colD1), ((1, 2), colD2)],
    dictDescriptorMapByRef := [(7, dictSampleDD)],
    storeDicts := [{ dictId := 7, name := "d7", nbits := 32, is_shared := true, refcount := 2 }] }

/-- Sample shared-dictionary reference to `td.c1`. -/
def sddSample : SharedDictionaryDef :=
  { column := "c3", foreign_table := "td", foreign_column := "c1" }

/-- Sample referencing column to be added. -/
def colNew : ColumnDescriptor := { columnName := "c3" }

/-- Witness for C3: in the sample catalog, adding a reference to the
shared dictionary bumps its refcount from 2 to 3, and removing table
`td` (both of whose columns reference dictionary 7 with refcount 2)
drops the refcount to zero, erasing the dictionary and removing its
folder. -/
theorem dict_refcount_semantics_witness :
    (∃ s3, addReferenceToForeignDict sampleDictCat colNew sddSample =
        some (s3, { colNew with columnType := colD1.columnType }) ∧
      alookup s3.dictDescriptorMapByRef colD1.columnType.comp_param =
        some { dictSampleDD with refcount := dictSampleDD.refcount + 1 } ∧
      (∀ d, ¬(d = colD1.columnType.comp_param) →
        alookup s3.dictDescriptorMapByRef d =
          alookup sampleDictCat.dictDescriptorMapByRef d) ∧
      s3.storeDicts = sampleDictCat.storeDicts.map (fun r =>
        if r.dictId = colD1.columnType.comp_param then
          { r with refcount := r.refcount + 1 } else r)) ∧
    (∃ s' evs,
      removeTableFromMap sampleDictCat "td" 1 = some (s', evs) ∧
      (∀ d, alookup s'.dictDescriptorMapByRef d =
        dictAfterRemove sampleDictCat.dictDescriptorMapByRef
          (countRefs sampleDictCat.columnDescriptorMapById 1
            (colIndexList tdDict.nColumns)) d) ∧
      (∀ d, d ∈ evs ↔ (tdDict.persistenceDisk = true ∧ ∃ dd2,
        alookup sampleDictCat.dictDescriptorMapByRef d = some dd2 ∧
        0 < countRefs sampleDictCat.columnDescriptorMapById 1
          (colIndexList tdDict.nColumns) d ∧
        dd2.refcount = (countRefs sampleDictCat.columnDescriptorMapById 1
          (colIndexList tdDict.nColumns) d : Int)))) :=
  dict_refcount_semantics sampleDictCat colNew sddSample colD1 dictSampleDD
    (by decide) (by decide) (by decide) sampleDictCat "td" 1 tdDict
    (by decide) (by decide) (by decide) (by decide)

end Catalog_Namespace
